import Mathlib

/-!
Verification development for the execution core of a WebAssembly 1.0
interpreter (sources: src/interpreter/runner.rs and src/interpreter/module.rs).

The repository ships only the runner and the module-instantiation pipeline;
the supporting components they use (the bounded stack, the linear memory,
the store of instantiated entities, the table, the typed variable cell and
the numeric helpers of value.rs) are declared elsewhere.  Definitions for
those carry a doc comment starting with the words: Modelled from the spec,
and follow the natural-language specification (spec.md) of this repository.
Everything else is translated directly from the two Rust source files.
-/

namespace PW

/-- Error kinds, mirroring interpreter::Error (spec section 7 tabulates the
same kinds).  The message strings are kept but theorems only inspect the
constructor. -/
inductive Error where
  | Validation (msg : String)
  | Initialization (msg : String)
  | Program (msg : String)
  | Function (msg : String)
  | Memory (msg : String)
  | Table (msg : String)
  | Global (msg : String)
  | Stack (msg : String)
  | Local (msg : String)
  | Trap (msg : String)
  deriving Repr, DecidableEq

/-- Value types of WebAssembly 1.0, mirroring elements::ValueType. -/
inductive ValueType where
  | i32
  | i64
  | f32
  | f64
  deriving Repr, DecidableEq

/-- Variable types, mirroring interpreter::variable::VariableType: the four
numeric types plus AnyFunc for table slots.  Modelled from the spec: the
source file variable.rs is not part of src. -/
inductive VariableType where
  | i32
  | i64
  | f32
  | f64
  | anyfunc
  deriving Repr, DecidableEq

/-- Conversion of a declared value type into a variable type (the From impl
used at call boundaries). -/
def ValueType.toVariableType : ValueType → VariableType
  | .i32 => .i32
  | .i64 => .i64
  | .f32 => .f32
  | .f64 => .f64

/-- Runtime values, mirroring interpreter::value::RuntimeValue.  I32/I64 hold
the signed integer (Rust i32/i64); floats are kept as their raw IEEE bit
patterns (the interpreter's F32Const/F64Const literals are bit patterns
decoded with decode_f32/decode_f64, and no claim performs float
arithmetic).  Modelled from the spec: value.rs is not part of src. -/
inductive RuntimeValue where
  | I32 (v : Int)
  | I64 (v : Int)
  | F32 (bits : Nat)
  | F64 (bits : Nat)
  | AnyFunc (idx : Nat)
  deriving Repr, DecidableEq

/-- Tag of a runtime value, mirroring RuntimeValue::variable_type.  Modelled
from the spec: value.rs is not part of src. -/
def RuntimeValue.variableType : RuntimeValue → VariableType
  | .I32 _ => .i32
  | .I64 _ => .i64
  | .F32 _ => .f32
  | .F64 _ => .f64
  | .AnyFunc _ => .anyfunc

/-- Zero value of each variable type, mirroring RuntimeValue::default.
Modelled from the spec: locals are zero-initialized. -/
def RuntimeValue.default : VariableType → RuntimeValue
  | .i32 => .I32 0
  | .i64 => .I64 0
  | .f32 => .F32 0
  | .f64 => .F64 0
  | .anyfunc => .AnyFunc 0

/-- Block types, mirroring elements::BlockType. -/
inductive BlockType where
  | Value (t : ValueType)
  | NoResult
  deriving Repr, DecidableEq

/-! Two's-complement helpers.  Rust i32/i64 are modelled as Lean Int with
explicit reduction modulo 2^32 / 2^64 where the machine width matters. -/

def U32_MOD : Nat := 4294967296

def U64_MOD : Nat := 18446744073709551616

/-- Unsigned 32-bit pattern of a signed integer (Rust as-cast i32 -> u32). -/
def toU32 (i : Int) : Nat := (i % (U32_MOD : Int)).toNat

/-- Signed reading of an unsigned 32-bit pattern (Rust as-cast u32 -> i32). -/
def ofU32 (n : Nat) : Int :=
  let m := n % U32_MOD
  if m < 2147483648 then (m : Int) else (m : Int) - (U32_MOD : Int)

/-- Unsigned 64-bit pattern of a signed integer. -/
def toU64 (i : Int) : Nat := (i % (U64_MOD : Int)).toNat

/-- Signed reading of an unsigned 64-bit pattern. -/
def ofU64 (n : Nat) : Int :=
  let m := n % U64_MOD
  if m < 9223372036854775808 then (m : Int) else (m : Int) - (U64_MOD : Int)

/-! Shift and rotate operations.  run_shl and run_shr (runner.rs) mask the
shift amount with 0x1F (I32) or 0x3F (I64) before shifting; rotl/rotr defer
to the Integer trait whose implementation uses the host rotate with the
amount taken modulo the bit width. -/

/-- I32 shift left: the dispatcher calls run_shl with mask 0x1F, which
computes left.shl(right & mask) on the 32-bit pattern. -/
def i32_shl (a b : Int) : Int :=
  ofU32 ((toU32 a <<< (toU32 b &&& 31)) % U32_MOD)

/-- I32 unsigned shift right: run_shr with T = u32 and mask 0x1F. -/
def i32_shr_u (a b : Int) : Int :=
  ofU32 (toU32 a >>> (toU32 b &&& 31))

/-- I32 signed (arithmetic) shift right: run_shr with T = i32 and mask 0x1F;
the arithmetic shift of a two's-complement value is the floor division by
the corresponding power of two. -/
def i32_shr_s (a b : Int) : Int :=
  ofU32 (toU32 (Int.fdiv (ofU32 (toU32 a)) (2 ^ (toU32 b &&& 31))))

/-- Rotate left of a 32-bit pattern by an amount taken mod 32.  Modelled
from the spec: rotate amounts are masked to 5 bits for I32. -/
def rotl32 (x k : Nat) : Nat :=
  let x := x % U32_MOD
  let k := k &&& 31
  ((x <<< k) ||| (x >>> (32 - k))) % U32_MOD

/-- Rotate right of a 32-bit pattern by an amount taken mod 32.  Modelled
from the spec: rotate amounts are masked to 5 bits for I32. -/
def rotr32 (x k : Nat) : Nat :=
  let x := x % U32_MOD
  let k := k &&& 31
  ((x >>> k) ||| (x <<< (32 - k))) % U32_MOD

/-- I32 rotate left, mirroring run_rotl at type i32. -/
def i32_rotl (a b : Int) : Int := ofU32 (rotl32 (toU32 a) (toU32 b))

/-- I32 rotate right, mirroring run_rotr at type i32. -/
def i32_rotr (a b : Int) : Int := ofU32 (rotr32 (toU32 a) (toU32 b))

/-- I64 shift left: run_shl with mask 0x3F. -/
def i64_shl (a b : Int) : Int :=
  ofU64 ((toU64 a <<< (toU64 b &&& 63)) % U64_MOD)

/-- I64 unsigned shift right: run_shr with T = u64 and mask 0x3F. -/
def i64_shr_u (a b : Int) : Int :=
  ofU64 (toU64 a >>> (toU64 b &&& 63))

/-- I64 signed shift right: run_shr with T = i64 and mask 0x3F. -/
def i64_shr_s (a b : Int) : Int :=
  ofU64 (toU64 (Int.fdiv (ofU64 (toU64 a)) (2 ^ (toU64 b &&& 63))))

/-- Rotate left of a 64-bit pattern by an amount taken mod 64.  Modelled
from the spec: rotate amounts are masked to 6 bits for I64. -/
def rotl64 (x k : Nat) : Nat :=
  let x := x % U64_MOD
  let k := k &&& 63
  ((x <<< k) ||| (x >>> (64 - k))) % U64_MOD

/-- Rotate right of a 64-bit pattern by an amount taken mod 64.  Modelled
from the spec: rotate amounts are masked to 6 bits for I64. -/
def rotr64 (x k : Nat) : Nat :=
  let x := x % U64_MOD
  let k := k &&& 63
  ((x >>> k) ||| (x <<< (64 - k))) % U64_MOD

/-- I64 rotate left, mirroring run_rotl at type i64. -/
def i64_rotl (a b : Int) : Int := ofU64 (rotl64 (toU64 a) (toU64 b))

/-- I64 rotate right, mirroring run_rotr at type i64. -/
def i64_rotr (a b : Int) : Int := ofU64 (rotr64 (toU64 a) (toU64 b))

/-! Bounded stacks, frames and the per-call function context. -/

/-- Bounded LIFO of values or frames.  Modelled from the spec: the source
file common/stack.rs is not part of src; spec section 4.6 describes a capped
LIFO whose push past the limit and pop from empty fail with a Stack error.
The head of the values list is the top of the stack. -/
structure StackWithLimit (α : Type) where
  values : List α
  limit : Nat
  deriving Repr

/-- Fresh empty stack with the given limit (StackWithLimit::with_limit). -/
def StackWithLimit.with_limit (α : Type) (l : Nat) : StackWithLimit α := ⟨[], l⟩

/-- Number of entries currently on the stack. -/
def StackWithLimit.len {α : Type} (s : StackWithLimit α) : Nat := s.values.length

/-- Emptiness test. -/
def StackWithLimit.isEmpty {α : Type} (s : StackWithLimit α) : Bool := s.values.isEmpty

/-- Push, failing with a Stack error when the stack already holds limit
entries.  Modelled from the spec (section 4.6). -/
def StackWithLimit.push {α : Type} (s : StackWithLimit α) (a : α) :
    Except Error (StackWithLimit α) :=
  if s.values.length ≥ s.limit then .error (.Stack "exceeded stack limit")
  else .ok { s with values := a :: s.values }

/-- Pop, failing with a Stack error on an empty stack.  Modelled from the
spec (section 4.6). -/
def StackWithLimit.pop {α : Type} (s : StackWithLimit α) :
    Except Error (α × StackWithLimit α) :=
  match s.values with
  | [] => .error (.Stack "non-empty stack expected")
  | v :: rest => .ok (v, { s with values := rest })

/-- Non-destructive read of the top entry.  Modelled from the spec
(section 4.6). -/
def StackWithLimit.top {α : Type} (s : StackWithLimit α) : Except Error α :=
  match s.values with
  | [] => .error (.Stack "non-empty stack expected")
  | v :: _ => .ok v

/-- Resize to n entries keeping the bottom of the stack, padding new top
entries with the given default (Vec::resize as used by pop_frame). -/
def StackWithLimit.resize {α : Type} (s : StackWithLimit α) (n : Nat) (default : α) :
    StackWithLimit α :=
  if n ≤ s.values.length then { s with values := s.values.drop (s.values.length - n) }
  else { s with values := List.replicate (n - s.values.length) default ++ s.values }

/-- Pop asserting an I32 tag, returning the signed value (pop_as of value.rs
at i32).  Modelled from the spec: pop_as pops and asserts the value tag. -/
def StackWithLimit.popAsI32 (s : StackWithLimit RuntimeValue) :
    Except Error (Int × StackWithLimit RuntimeValue) := do
  let (v, s') ← s.pop
  match v with
  | .I32 n => .ok (n, s')
  | _ => .error (.Stack "32-bit int value expected")

/-- Pop asserting an I32 tag read as unsigned (pop_as at u32: Rust casts the
i32 payload with an as-cast).  Modelled from the spec. -/
def StackWithLimit.popAsU32 (s : StackWithLimit RuntimeValue) :
    Except Error (Nat × StackWithLimit RuntimeValue) := do
  let (v, s') ← s.popAsI32
  .ok (toU32 v, s')

/-- Pop an I32 read as a condition (pop_as at bool: nonzero is true).
Modelled from the spec. -/
def StackWithLimit.popAsBool (s : StackWithLimit RuntimeValue) :
    Except Error (Bool × StackWithLimit RuntimeValue) := do
  let (v, s') ← s.popAsI32
  .ok (v ≠ 0, s')

/-- Typed variable cell, mirroring interpreter::variable::VariableInstance.
Modelled from the spec: variable.rs is not part of src; the cell holds the
declared type, a mutability flag and the current value, with the invariant
that the value's tag equals the declared type. -/
structure Variable where
  is_mutable : Bool
  variable_type : VariableType
  value : RuntimeValue
  deriving Repr, DecidableEq

/-- VariableInstance::new: fails when the initial value's tag disagrees with
the declared type.  Modelled from the spec (section 3, VariableInstance). -/
def Variable.new (is_mutable : Bool) (vt : VariableType) (v : RuntimeValue) :
    Except Error Variable :=
  if v.variableType ≠ vt then
    .error (.Global "trying to initialize variable with value of different type")
  else .ok ⟨is_mutable, vt, v⟩

/-- VariableInstance::get. -/
def Variable.get (g : Variable) : RuntimeValue := g.value

/-- VariableInstance::set: fails when the cell is immutable or the tags
disagree.  Modelled from the spec (section 3, VariableInstance). -/
def Variable.set (g : Variable) (v : RuntimeValue) : Except Error Variable :=
  if ¬g.is_mutable then .error (.Global "trying to update immutable variable")
  else if v.variableType ≠ g.variable_type then
    .error (.Global "trying to update variable with value of different type")
  else .ok { g with value := v }

/-- Frame types, mirroring common::BlockFrameType. -/
inductive BlockFrameType where
  | Function
  | Block
  | Loop
  | IfTrue
  | IfFalse
  deriving Repr, DecidableEq

/-- Block frame, mirroring common::BlockFrame (spec section 3 lists the same
fields). -/
structure BlockFrame where
  frame_type : BlockFrameType
  block_type : BlockType
  begin_position : Nat
  branch_position : Nat
  end_position : Nat
  value_stack_len : Nat
  deriving Repr, DecidableEq

/-- Label map from structured-opcode position to matching End (or Else)
position, mirroring the HashMap of runner.rs as an association list. -/
def Labels : Type := List (Nat × Nat)

/-- Lookup in the label map.  The Rust code indexes the HashMap directly and
would abort on a missing key, which the validator precludes; a missing key
is given the out-of-band value 0 here and theorems assume presence. -/
def Labels.find (labels : Labels) (k : Nat) : Option Nat :=
  List.lookup k labels

/-- Stand-in for usize::MAX (the synthetic Function frame's positions). -/
def USIZE_MAX : Nat := 18446744073709551615

/-- Function execution context, mirroring runner.rs FunctionContext.
Function and module references are indices into the store. -/
structure FunctionContext where
  is_initialized : Bool
  function : Nat
  module : Nat
  return_type : BlockType
  locals : List Variable
  value_stack : StackWithLimit RuntimeValue
  frame_stack : StackWithLimit BlockFrame
  position : Nat

/-- FunctionContext::push_frame (runner.rs): computes the branch and end
positions of the new frame from the label map and records the value-stack
height at entry. -/
def FunctionContext.push_frame (c : FunctionContext) (labels : Labels)
    (frame_type : BlockFrameType) (block_type : BlockType) :
    Except Error FunctionContext := do
  let begin_position := c.position
  let branch_position :=
    match frame_type with
    | .Function => USIZE_MAX
    | .Loop => begin_position
    | .IfTrue =>
        let else_pos := (labels.find begin_position).getD 0
        1 + (match labels.find else_pos with
             | some end_pos => end_pos
             | none => else_pos)
    | _ => (labels.find begin_position).getD 0 + 1
  let end_position :=
    match frame_type with
    | .Function => USIZE_MAX
    | _ => (labels.find begin_position).getD 0 + 1
  let fs ← c.frame_stack.push
    { frame_type := frame_type
      block_type := block_type
      begin_position := begin_position
      branch_position := branch_position
      end_position := end_position
      value_stack_len := c.value_stack.len }
  .ok { c with frame_stack := fs }

/-- FunctionContext::discard_frame (runner.rs): pop a frame, dropping it. -/
def FunctionContext.discard_frame (c : FunctionContext) :
    Except Error FunctionContext := do
  let (_, fs) ← c.frame_stack.pop
  .ok { c with frame_stack := fs }

/-- FunctionContext::pop_frame (runner.rs lines 1109-1126): pop the top
frame; check the recorded entry height; pop the block's result value when
the block type declares one, except on a branch to a Loop frame; cut the
value stack back to the entry height; jump to the branch position (on
branch) or the end position; push the carried value back. -/
def FunctionContext.pop_frame (c : FunctionContext) (is_branch : Bool) :
    Except Error FunctionContext := do
  let (frame, fs) ← c.frame_stack.pop
  if frame.value_stack_len > c.value_stack.len then
    .error (.Stack "invalid stack len")
  else do
    let (frame_value, vs1) ←
      match frame.block_type with
      | .Value _ =>
          if frame.frame_type ≠ .Loop ∨ is_branch = false then do
            let (v, vs) ← c.value_stack.pop
            pure (some v, vs)
          else pure (none, c.value_stack)
      | .NoResult => pure ((none : Option RuntimeValue), c.value_stack)
    let vs2 := vs1.resize frame.value_stack_len (RuntimeValue.I32 0)
    let vs3 ← match frame_value with
      | some v => vs2.push v
      | none => pure vs2
    .ok { c with frame_stack := fs, value_stack := vs3,
                 position := if is_branch then frame.branch_position
                             else frame.end_position }

/-- Discarding of n inner frames, the loop in do_run_function's Branch
handling (runner.rs lines 135-139). -/
def discardFrames : Nat → FunctionContext → Except Error FunctionContext
  | 0, c => .ok c
  | n + 1, c => do
      let c' ← c.discard_frame
      discardFrames n c'

/-- Branch handling of do_run_function (runner.rs lines 134-145): discard
the n inner frames, then pop the target frame as a branch; the returned
flag tells whether the frame stack emptied (ending the function). -/
def runBranch (n : Nat) (c : FunctionContext) :
    Except Error (FunctionContext × Bool) := do
  let c' ← discardFrames n c
  let c'' ← c'.pop_frame true
  .ok (c'', c''.frame_stack.isEmpty)

/-! Linear memory, tables, the store of instantiated entities, and the
memory-touching instruction handlers. -/

/-- Bytes per page of linear memory (spec glossary: a page is 65536 bytes). -/
def LINEAR_MEMORY_PAGE_SIZE : Nat := 65536

/-- Index of the default memory (common::DEFAULT_MEMORY_INDEX). -/
def DEFAULT_MEMORY_INDEX : Nat := 0

/-- Index of the default table (common::DEFAULT_TABLE_INDEX). -/
def DEFAULT_TABLE_INDEX : Nat := 0

/-- Linear memory instance.  Modelled from the spec: memory.rs is not part
of src; spec section 3 describes a byte vector sized in 64 KiB pages with
declared initial and optional maximum page counts. -/
structure MemoryInstance where
  data : List Nat
  initial : Nat
  maximum : Option Nat
  deriving Repr, DecidableEq

/-- Current size in pages (MemoryInstance::size; CurrentMemory returns the
size in pages).  Modelled from the spec. -/
def MemoryInstance.size (m : MemoryInstance) : Nat :=
  m.data.length / LINEAR_MEMORY_PAGE_SIZE

/-- Bounds-checked read of size bytes at offset; reading past the end of
the data fails with a Memory error.  Modelled from the spec (section 4.5):
if addr + sizeof(T) exceeds the memory size in bytes, trap. -/
def MemoryInstance.get (m : MemoryInstance) (offset size : Nat) :
    Except Error (List Nat) :=
  if offset + size > m.data.length then
    .error (.Memory "trying to access region out of memory bounds")
  else .ok ((m.data.drop offset).take size)

/-- Bounds-checked write of the given bytes at offset; writing past the end
of the data fails with a Memory error and leaves the data unchanged.
Modelled from the spec (section 4.5). -/
def MemoryInstance.set (m : MemoryInstance) (offset : Nat) (bytes : List Nat) :
    Except Error MemoryInstance :=
  if offset + bytes.length > m.data.length then
    .error (.Memory "trying to update region out of memory bounds")
  else .ok { m with
    data := m.data.take offset ++ bytes ++ m.data.drop (offset + bytes.length) }

/-- Grow by the given number of pages.  Modelled from the spec (sections 3,
4.5 and 8): growing past the declared maximum (or past the 65536-page
hard cap when none is declared) is non-trapping and returns the u32
pattern of -1 leaving the memory unchanged; on success the old size in
pages is returned.  A host allocation failure is not representable here. -/
def MemoryInstance.grow (m : MemoryInstance) (pages : Nat) :
    Except Error (MemoryInstance × Nat) :=
  let old_size := m.size
  let new_size := old_size + pages
  let past_limit : Bool :=
    match m.maximum with
    | some maximum => decide (new_size > maximum)
    | none => decide (new_size > 65536)
  if past_limit then .ok (m, 4294967295)
  else .ok ({ m with
    data := m.data ++ List.replicate (pages * LINEAR_MEMORY_PAGE_SIZE) 0 }, old_size)

/-- Table of function references.  Modelled from the spec: table.rs is not
part of src; slots hold a function id or are empty. -/
structure TableInstance where
  elems : List (Option Nat)
  deriving Repr, DecidableEq

/-- Read a table slot: an out-of-range index is a Table error (spec
section 7), an empty slot a Function error (a missing function).  Modelled
from the spec (section 4.5, CallIndirect). -/
def TableInstance.get (t : TableInstance) (idx : Nat) : Except Error Nat :=
  match t.elems.get? idx with
  | none => .error (.Table "trying to read table item with out-of-range index")
  | some none => .error (.Function "trying to call null table entry")
  | some (some f) => .ok f

/-- Declared locals entry, mirroring elements::Local (type times count). -/
structure LocalEntry where
  count : Nat
  value_type : ValueType
  deriving Repr, DecidableEq

/-- Function type, mirroring elements::FunctionType: ordered parameters and
an optional single result; equality is structural. -/
structure FunctionType where
  params : List ValueType
  return_type : Option ValueType
  deriving Repr, DecidableEq

/-- The opcodes of the embedded instruction subset, mirroring the
constructors of elements::Opcode that the claims exercise.  Loads and
stores carry the alignment hint (ignored) and the immediate offset. -/
inductive Opcode where
  | Unreachable
  | Nop
  | Block (bt : BlockType)
  | Loop (bt : BlockType)
  | If (bt : BlockType)
  | Else
  | End
  | Br (idx : Nat)
  | BrIf (idx : Nat)
  | BrTable (table : List Nat) (default : Nat)
  | Return
  | Call (index : Nat)
  | CallIndirect (type_idx : Nat) (reserved : Nat)
  | Drop
  | GetLocal (index : Nat)
  | SetLocal (index : Nat)
  | TeeLocal (index : Nat)
  | GetGlobal (index : Nat)
  | SetGlobal (index : Nat)
  | I32Load (align : Nat) (offset : Nat)
  | I32Store (align : Nat) (offset : Nat)
  | CurrentMemory (reserved : Nat)
  | GrowMemory (reserved : Nat)
  | I32Const (v : Int)
  | I64Const (v : Int)
  | F32Const (bits : Nat)
  | F64Const (bits : Nat)
  | I32Add
  | I32Sub
  | I32Eqz
  | I32Shl
  | I32ShrS
  | I32ShrU
  | I32Rotl
  | I32Rotr
  deriving Repr, DecidableEq

/-- Function body, mirroring FuncBody: declared locals, opcode sequence and
the per-body label map. -/
structure FuncBody where
  locals : List LocalEntry
  opcodes : List Opcode
  labels : Labels

/-- Function instance of the store, either module-defined with a body or a
host function.  Modelled from the spec (section 9): store.rs is not part of
src. -/
inductive FuncInstance where
  | Defined (module : Nat) (func_type : Nat) (body : FuncBody)
  | Host (func_type : Nat)

/-- FuncInstance::body: host functions have none. -/
def FuncInstance.body : FuncInstance → Option FuncBody
  | .Defined _ _ b => some b
  | .Host _ => none

/-- FuncInstance::func_type: index of the signature in the store's types. -/
def FuncInstance.func_type : FuncInstance → Nat
  | .Defined _ t _ => t
  | .Host t => t

/-- Per-module index spaces: entity ids into the store's vectors, and the
module's type table.  Modelled from the spec (section 4.1): the store owns
long-lived references by opaque id. -/
structure ModuleRec where
  types : List Nat
  func_ids : List Nat
  memory_ids : List Nat
  table_ids : List Nat
  global_ids : List Nat
  deriving Inhabited

/-- The store of instantiated entities, addressed by opaque ids (indices).
Modelled from the spec (section 4.1): store.rs is not part of src. -/
structure Store where
  types : List FunctionType
  funcs : List FuncInstance
  memories : List MemoryInstance
  tables : List TableInstance
  globals : List Variable
  modules : List ModuleRec

/-- Function type of a type id in the store's type arena (sentinel nullary
type on a miss). -/
def Store.typeAt (s : Store) (tid : Nat) : FunctionType :=
  (s.types.get? tid).getD ⟨[], none⟩

/-- Resolve a function id.  The Rust resolve indexes the store's arena and
cannot miss for ids the store handed out; a missing id resolves to a
sentinel host function here and theorems assume validity. -/
def Store.resolveFunc (s : Store) (fid : Nat) : FuncInstance :=
  (s.funcs.get? fid).getD (.Host 0)

/-- Module record of a module id (sentinel empty record on a miss). -/
def Store.moduleRec (s : Store) (mid : Nat) : ModuleRec :=
  (s.modules.get? mid).getD default

/-- ModuleId::resolve_memory: the memory id at the given index of the
module's memory index space. -/
def Store.resolve_memory (s : Store) (mid idx : Nat) : Nat :=
  ((s.moduleRec mid).memory_ids.get? idx).getD 0

/-- Memory instance of a memory id (sentinel empty memory on a miss). -/
def Store.memoryAt (s : Store) (memid : Nat) : MemoryInstance :=
  (s.memories.get? memid).getD ⟨[], 0, none⟩

/-- ModuleId::resolve_table: the table id at the given index of the
module's table index space. -/
def Store.resolve_table (s : Store) (mid idx : Nat) : Nat :=
  ((s.moduleRec mid).table_ids.get? idx).getD 0

/-- Table instance of a table id (sentinel empty table on a miss). -/
def Store.tableAt (s : Store) (tid : Nat) : TableInstance :=
  (s.tables.get? tid).getD ⟨[]⟩

/-- ModuleId::resolve_type: the function type at the given index of the
module's type table (sentinel nullary type on a miss; the Rust resolve
cannot miss for validated modules). -/
def Store.resolve_type (s : Store) (mid type_idx : Nat) : FunctionType :=
  s.typeAt (((s.moduleRec mid).types.get? type_idx).getD 0)

/-- ModuleId::resolve_func: the function id at the given index of the
module's function index space. -/
def Store.resolve_func (s : Store) (mid idx : Nat) : Nat :=
  ((s.moduleRec mid).func_ids.get? idx).getD 0

/-- Interpreter action after an instruction, mirroring InstructionOutcome
(runner.rs). -/
inductive InstructionOutcome where
  | RunNextInstruction
  | Branch (index : Nat)
  | ExecuteCall (func : Nat)
  | End
  | Return
  deriving Repr, DecidableEq

/-- Result of one instruction handler over the store and the context,
mirroring the mutable-borrow effects of the Rust methods. -/
def StepResult : Type := Except Error (Store × FunctionContext × InstructionOutcome)

/-- effective_address (runner.rs lines 1135-1140): checked u32 addition of
the instruction's immediate offset and the popped base address; overflow
past u32 is a Memory error. -/
def effective_address (address offset : Nat) : Except Error Nat :=
  if offset + address ≥ U32_MOD then
    .error (.Memory "invalid memory access")
  else .ok (offset + address)

/-- run_load (runner.rs lines 511-521), parametric over the loaded width in
bytes and the little-endian decoding into a runtime value, as the Rust
method is parametric over T: pop the base address, compute the effective
address, read sizeof(T) bytes from the default memory, push the decoded
value. -/
def run_load_gen (size : Nat) (decode : List Nat → RuntimeValue)
    (s : Store) (c : FunctionContext) (offset : Nat) : StepResult := do
  let (base, vs) ← c.value_stack.popAsU32
  let address ← effective_address offset base
  let m := s.memoryAt (s.resolve_memory c.module DEFAULT_MEMORY_INDEX)
  let b ← m.get address size
  let vs' ← vs.push (decode b)
  .ok (s, { c with value_stack := vs' }, .RunNextInstruction)

/-- run_store (runner.rs lines 539-552), parametric over the little-endian
encoding of the popped value, as the Rust method is parametric over T: pop
the value, encode it, pop the base address, compute the effective address,
write the bytes into the default memory. -/
def run_store_gen (tryEncode : RuntimeValue → Except Error (List Nat))
    (s : Store) (c : FunctionContext) (offset : Nat) : StepResult := do
  let (v, vs) ← c.value_stack.pop
  let bytes ← tryEncode v
  let (base, vs') ← vs.popAsU32
  let address ← effective_address offset base
  let memid := s.resolve_memory c.module DEFAULT_MEMORY_INDEX
  let m := s.memoryAt memid
  let m' ← m.set address bytes
  .ok ({ s with memories := s.memories.set memid m' },
       { c with value_stack := vs' }, .RunNextInstruction)

/-- Little-endian byte sequence of the low width bytes of a natural number. -/
def leBytes (width n : Nat) : List Nat :=
  (List.range width).map (fun i => (n / 256 ^ i) % 256)

/-- Little-endian reading of a byte list as a natural number. -/
def leDecode (bs : List Nat) : Nat :=
  bs.foldr (fun b acc => b + 256 * acc) 0

/-- Little-endian codec at i32 (LittleEndianConvert for i32).  Modelled
from the spec: all accesses are little-endian. -/
def i32Decode (bs : List Nat) : RuntimeValue := .I32 (ofU32 (leDecode bs))

/-- Encoding side of the i32 codec: fails on a non-I32 tag as pop_as
would. -/
def i32TryEncode : RuntimeValue → Except Error (List Nat)
  | .I32 v => .ok (leBytes 4 (toU32 v))
  | _ => .error (.Stack "32-bit int value expected")

/-- run_current_memory (runner.rs lines 579-589): push the default memory's
size in pages as an I32. -/
def run_current_memory (s : Store) (c : FunctionContext) : StepResult := do
  let m := s.memoryAt (s.resolve_memory c.module DEFAULT_MEMORY_INDEX)
  let vs ← c.value_stack.push (.I32 (ofU32 m.size))
  .ok (s, { c with value_stack := vs }, .RunNextInstruction)

/-- run_call_indirect (runner.rs lines 430-445): pop the I32 table index,
load the slot of the default table, resolve the slot function's signature
and the type required by the instruction's type index; a differing
signature is a Function error, otherwise the call proceeds. -/
def run_call_indirect (s : Store) (c : FunctionContext) (type_idx : Nat) :
    StepResult := do
  let (table_func_idx, vs) ← c.value_stack.popAsU32
  let table := s.tableAt (s.resolve_table c.module DEFAULT_TABLE_INDEX)
  let func_ref ← table.get table_func_idx
  let actual_function_type := s.typeAt (s.resolveFunc func_ref).func_type
  let required_function_type := s.resolve_type c.module type_idx
  if required_function_type ≠ actual_function_type then
    .error (.Function "expected function with different signature")
  else
    .ok (s, { c with value_stack := vs }, .ExecuteCall func_ref)

/-- run_grow_memory (runner.rs lines 591-602): pop the page count, grow the
default memory, push grow's result (the old size in pages, or the u32
pattern of -1 on a non-trapping failure) as an I32. -/
def run_grow_memory (s : Store) (c : FunctionContext) : StepResult := do
  let (pages, vs) ← c.value_stack.popAsU32
  let memid := s.resolve_memory c.module DEFAULT_MEMORY_INDEX
  let mem := s.memoryAt memid
  let (mem', old) ← mem.grow pages
  let vs' ← vs.push (.I32 (ofU32 old))
  .ok ({ s with memories := s.memories.set memid mem' },
       { c with value_stack := vs' }, .RunNextInstruction)

/-! The call protocol: argument binding, context initialization, nested
contexts and caller contexts. -/

/-- Maximum number of entries in a value stack (module.rs line 17). -/
def DEFAULT_VALUE_STACK_LIMIT : Nat := 16384

/-- Maximum number of entries in a frame stack (module.rs line 19). -/
def DEFAULT_FRAME_STACK_LIMIT : Nat := 1024

/-- Inner loop of prepare_function_args (runner.rs lines 1142-1155): walk
the parameter types in reverse declaration order, popping a value for each
and failing with a Function error when its tag differs from the declared
parameter type; collected in iteration order (the caller reverses). -/
def prepare_function_args_rev :
    List ValueType → StackWithLimit RuntimeValue →
    Except Error (List Variable × StackWithLimit RuntimeValue)
  | [], st => .ok ([], st)
  | pt :: rest, st => do
      let (param_value, st') ← st.pop
      if param_value.variableType ≠ pt.toVariableType then
        .error (.Function "invalid parameter type")
      else do
        let var ← Variable.new true pt.toVariableType param_value
        let (args, st'') ← prepare_function_args_rev rest st'
        .ok (var :: args, st'')

/-- prepare_function_args (runner.rs lines 1142-1155): pop one value per
declared parameter from the caller's value stack, newest first, checking
types, and reverse the result into declaration order. -/
def prepare_function_args (function_type : FunctionType)
    (caller_stack : StackWithLimit RuntimeValue) :
    Except Error (List Variable × StackWithLimit RuntimeValue) := do
  let (args, st) ← prepare_function_args_rev function_type.params.reverse caller_stack
  .ok (args.reverse, st)

/-- Collection of zero-initialized variables for the given tags, mirroring
the collect of VariableInstance::new results in FunctionContext::initialize. -/
def collectVars : List VariableType → Except Error (List Variable)
  | [] => .ok []
  | vt :: rest => do
      let v ← Variable.new true vt (RuntimeValue.default vt)
      let vs ← collectVars rest
      .ok (v :: vs)

/-- FunctionContext::initialize (runner.rs lines 1032-1042): expand the
declared locals (type times count) into zero-initialized variables and
append them to the argument locals. -/
def FunctionContext.initialize (c : FunctionContext) (locals : List LocalEntry) :
    Except Error FunctionContext := do
  let newLocals ← collectVars
    (locals.flatMap fun l => List.replicate l.count l.value_type.toVariableType)
  .ok { c with is_initialized := true, locals := c.locals ++ newLocals }

/-- Outcome of an operation that can abort the process, modelling a Rust
panic as distinct from an Error result. -/
inductive OrPanic (α : Type) where
  | panic
  | value (a : α)

/-- FunctionContext::nested (runner.rs lines 1001-1026): resolve the callee
(a host callee aborts the process in new and nested alike), bind its
arguments from the caller's value stack, and build the fresh context whose
stack limits are the caller's limits minus the caller's current depths
(measured after the arguments were popped).  Returns the updated caller
and the new context. -/
def FunctionContext.nested (c : FunctionContext) (s : Store) (function : Nat) :
    OrPanic (Except Error (FunctionContext × FunctionContext)) :=
  match s.resolveFunc function with
  | .Host _ => .panic
  | .Defined module func_type _ =>
      .value (do
        let function_type := s.typeAt func_type
        let function_return_type :=
          match function_type.return_type with
          | some vt => BlockType.Value vt
          | none => BlockType.NoResult
        let (function_locals, vs') ← prepare_function_args function_type c.value_stack
        .ok ({ c with value_stack := vs' },
          { is_initialized := false
            function := function
            module := module
            return_type := function_return_type
            locals := function_locals
            value_stack := StackWithLimit.with_limit RuntimeValue (vs'.limit - vs'.len)
            frame_stack := StackWithLimit.with_limit BlockFrame
              (c.frame_stack.limit - c.frame_stack.len)
            position := 0 }))

/-- Caller context carrying the remaining stack budgets down the call chain
(module.rs lines 80-89; the externals map is not needed by any claim and
is omitted). -/
structure CallerContext where
  value_stack_limit : Nat
  frame_stack_limit : Nat
  value_stack : StackWithLimit RuntimeValue

/-- CallerContext::topmost (module.rs lines 487-494): the root caller gets
the default limits. -/
def CallerContext.topmost (args : StackWithLimit RuntimeValue) : CallerContext :=
  { value_stack_limit := DEFAULT_VALUE_STACK_LIMIT
    frame_stack_limit := DEFAULT_FRAME_STACK_LIMIT
    value_stack := args }

/-- CallerContext::nested (module.rs lines 497-504): a nested caller's
budgets are the outer context's limits minus its current depths. -/
def CallerContext.nested (outer : FunctionContext) : CallerContext :=
  { value_stack_limit := outer.value_stack.limit - outer.value_stack.len
    frame_stack_limit := outer.frame_stack.limit - outer.frame_stack.len
    value_stack := outer.value_stack }

/-! The parsed module, the imports resolver and the instantiation-time
initializer evaluation. -/

/-- Item index forms, mirroring ItemIndex (module.rs lines 56-63). -/
inductive ItemIndex where
  | IndexSpace (i : Nat)
  | Internal (i : Nat)
  | External (i : Nat)
  deriving Repr, DecidableEq

/-- Global type (content type and mutability), mirroring
elements::GlobalType. -/
structure GlobalType where
  content : ValueType
  is_mutable : Bool
  deriving Repr, DecidableEq

/-- Resizable limits of memories and tables, mirroring
elements::ResizableLimits. -/
structure ResizableLimits where
  initial : Nat
  maximum : Option Nat
  deriving Repr, DecidableEq

/-- Export destination, mirroring elements::Internal. -/
inductive Internal where
  | Function (index : Nat)
  | Global (index : Nat)
  | Memory (index : Nat)
  | Table (index : Nat)
  deriving Repr, DecidableEq

/-- Export entry (field name and destination), mirroring
elements::ExportEntry. -/
structure ExportEntry where
  field : String
  internal : Internal
  deriving Repr, DecidableEq

/-- Import descriptor, mirroring elements::External. -/
inductive ExternalKind where
  | Function (type_idx : Nat)
  | Global (gt : GlobalType)
  | Memory (limits : ResizableLimits)
  | Table (limits : ResizableLimits)
  deriving Repr, DecidableEq

/-- Import entry, mirroring elements::ImportEntry. -/
structure ImportEntry where
  module : String
  field : String
  external : ExternalKind
  deriving Repr, DecidableEq

/-- Global-section entry (declared type and constant initializer),
mirroring elements::GlobalEntry. -/
structure GlobalEntry where
  global_type : GlobalType
  init_expr : List Opcode
  deriving Repr, DecidableEq

/-- Element segment, mirroring elements::ElementSegment. -/
structure ElementSegment where
  index : Nat
  offset : List Opcode
  members : List Nat
  deriving Repr, DecidableEq

/-- Data segment, mirroring elements::DataSegment. -/
structure DataSegment where
  index : Nat
  offset : List Opcode
  value : List Nat
  deriving Repr, DecidableEq

/-- Code-section body: declared locals and opcodes, mirroring
elements::FuncBody. -/
structure CodeBody where
  locals : List LocalEntry
  code : List Opcode
  deriving Repr, DecidableEq

/-- Parsed module with its optional sections, mirroring elements::Module as
consumed by module.rs. -/
structure ParsedModule where
  type_section : Option (List FunctionType)
  import_section : Option (List ImportEntry)
  function_section : Option (List Nat)
  table_section : Option (List ResizableLimits)
  memory_section : Option (List ResizableLimits)
  global_section : Option (List GlobalEntry)
  export_section : Option (List ExportEntry)
  start_section : Option Nat
  elements_section : Option (List ElementSegment)
  code_section : Option (List CodeBody)
  data_section : Option (List DataSegment)
  deriving Repr, DecidableEq

/-- Imports resolver.  Modelled from the spec: imports.rs is not part of
src; section 4.2 binds each import by (module-name, field-name) to a store
entity of matching kind.  It carries the count of global imports (globals
come first in the index space, conversion is by subtracting the import
count) and the registry view used to resolve a global import. -/
structure ModuleImports where
  function_import_count : Nat
  table_import_count : Nat
  memory_import_count : Nat
  global_import_count : Nat
  lookup_global : String → String → Option Variable
  lookup_memory : String → String → Option MemoryInstance
  lookup_table : String → String → Option TableInstance

/-- ModuleImports::parse_global_index.  Modelled from the spec (section 3,
ItemIndex): an index-space index below the import count is external,
otherwise internal after subtracting the import count. -/
def ModuleImports.parse_global_index (imp : ModuleImports) :
    ItemIndex → ItemIndex
  | .IndexSpace i =>
      if i < imp.global_import_count then .External i
      else .Internal (i - imp.global_import_count)
  | x => x

/-- ModuleImports::global: resolve a global import entry.  Modelled from
the spec (section 4.2): the importer must declare an immutable type, the
exporter's global must be immutable with that type; a missing module or
export is a Program error and a descriptor mismatch a Validation error. -/
def ModuleImports.global (imp : ModuleImports) (e : ImportEntry) :
    Except Error Variable :=
  match imp.lookup_global e.module e.field with
  | none => .error (.Program "missing module or export for global import")
  | some g =>
      match e.external with
      | .Global gt =>
          if gt.is_mutable then
            .error (.Validation "trying to import mutable global")
          else if g.is_mutable then
            .error (.Validation "trying to import mutable global")
          else if g.variable_type ≠ gt.content.toVariableType then
            .error (.Validation "imported global type mismatch")
          else .ok g
      | _ => .error (.Global "expected global import entry")

/-- Test for the five constant-initializer opcode forms (the instructions
get_initializer accepts). -/
def Opcode.isConstantInit : Opcode → Bool
  | .I32Const _ => true
  | .I64Const _ => true
  | .F32Const _ => true
  | .F64Const _ => true
  | .GetGlobal _ => true
  | _ => false

/-- get_initializer (module.rs lines 538-559): evaluate an
instantiation-time initializer.  Only the first opcode is inspected: the
four constants yield their literal (float literals keep their bit
pattern, as decode_f32/decode_f64 do), GetGlobal resolves an imported
global through the imports resolver (a non-external global index is a
Global error), and every other instruction is an Initialization error; an
empty expression is an Initialization error. -/
def get_initializer (expr : List Opcode) (module : ParsedModule)
    (imports : ModuleImports) : Except Error RuntimeValue :=
  match expr.get? 0 with
  | none => .error (.Initialization "empty instantiation-time initializer")
  | some first_opcode =>
    match first_opcode with
    | .GetGlobal index =>
        match imports.parse_global_index (.IndexSpace index) with
        | .External index' =>
            (match module.import_section with
             | none => .error (.Global "trying to initialize with external global in module without import section")
             | some entries =>
                 match entries.get? index' with
                 | none => .error (.Global "trying to initialize with external global with out-of-range index")
                 | some e => (imports.global e).map Variable.get)
        | _ => .error (.Global "trying to initialize with non-external global")
    | .I32Const val => .ok (.I32 val)
    | .I64Const val => .ok (.I64 val)
    | .F32Const val => .ok (.F32 val)
    | .F64Const val => .ok (.F64 val)
    | _ => .error (.Initialization "not-supported instruction in instantiation-time initializer")

/-! The function-body validator.  Modelled from the spec: validator.rs is
not part of src; spec section 4.3 describes the standard type-stack
verifier with an abstract value stack, a control stack of block entries
with an unreachable flag, and the DEFAULT stack limits; it is implemented
here over the embedded opcode subset.  No claim exercises its typing
rules, so no theorem below depends on its internals. -/

/-- Optional single result of a block type. -/
def BlockType.resultType : BlockType → Option ValueType
  | .Value t => some t
  | .NoResult => none

/-- Abstract operand of the validator: a concrete type, or the polymorphic
operand available below an unreachable point. -/
inductive AbstractValueType where
  | exact (t : ValueType)
  | poly
  deriving Repr, DecidableEq

/-- Control-stack entry of the validator (spec section 4.3): kind, branch
label type (empty for Loop), end type, entry height and unreachable flag. -/
structure ValidationFrame where
  frame_kind : BlockFrameType
  label_type : Option ValueType
  end_type : Option ValueType
  height : Nat
  unreachable : Bool
  deriving Repr, DecidableEq

/-- Validator state: abstract value stack (head is top) and control stack. -/
structure VState where
  stack : List AbstractValueType
  ctrl : List ValidationFrame
  deriving Repr, DecidableEq

/-- Validation context: the module being checked, the function's locals
(parameters first), its return type and the stack limits. -/
structure VCtx where
  module : ParsedModule
  locals : List ValueType
  return_type : BlockType
  value_stack_limit : Nat
  frame_stack_limit : Nat

/-- Declared types of the imported globals, in import-section order. -/
def importedGlobalTypes (m : ParsedModule) : List GlobalType :=
  (m.import_section.getD []).filterMap fun e =>
    match e.external with
    | .Global gt => some gt
    | _ => none

/-- Global type at an index of the global index space (imports first). -/
def globalTypeAt (m : ParsedModule) (idx : Nat) : Option GlobalType :=
  (importedGlobalTypes m ++ (m.global_section.getD []).map (·.global_type)).get? idx

/-- Type references of the imported functions, in import-section order. -/
def importedFunctionTypeIds (m : ParsedModule) : List Nat :=
  (m.import_section.getD []).filterMap fun e =>
    match e.external with
    | .Function t => some t
    | _ => none

/-- Function type at an index of the function index space (imports first). -/
def functionTypeAt (m : ParsedModule) (idx : Nat) : Option FunctionType :=
  ((importedFunctionTypeIds m ++ m.function_section.getD []).get? idx).bind
    fun t => (m.type_section.getD []).get? t

/-- Whether the module has a memory (imported or defined). -/
def moduleHasMemory (m : ParsedModule) : Bool :=
  !(m.memory_section.getD []).isEmpty ||
    (m.import_section.getD []).any fun e =>
      match e.external with
      | .Memory _ => true
      | _ => false

/-- Whether the module has a table (imported or defined). -/
def moduleHasTable (m : ParsedModule) : Bool :=
  !(m.table_section.getD []).isEmpty ||
    (m.import_section.getD []).any fun e =>
      match e.external with
      | .Table _ => true
      | _ => false

/-- Push an abstract operand, enforcing the value-stack limit. -/
def vpush (ctx : VCtx) (st : VState) (t : AbstractValueType) :
    Except Error VState :=
  if st.stack.length ≥ ctx.value_stack_limit then
    .error (.Validation "exceeded value stack limit")
  else .ok { st with stack := t :: st.stack }

/-- Pop an abstract operand; below the current frame's entry height only the
unreachable polymorphic operand is available. -/
def vpopAny (st : VState) : Except Error (AbstractValueType × VState) :=
  match st.ctrl with
  | [] => .error (.Validation "operand pop outside any frame")
  | f :: _ =>
      if st.stack.length = f.height then
        if f.unreachable then .ok (.poly, st)
        else .error (.Validation "value stack underflow")
      else
        match st.stack with
        | [] => .error (.Validation "value stack underflow")
        | t :: rest => .ok (t, { st with stack := rest })

/-- Pop an operand and require the given concrete type. -/
def vpopExpect (st : VState) (t : ValueType) : Except Error VState := do
  let (a, st') ← vpopAny st
  match a with
  | .poly => .ok st'
  | .exact u =>
      if u = t then .ok st'
      else .error (.Validation "operand type mismatch")

/-- Pop the optional result of a label or block. -/
def vpopOpt (st : VState) : Option ValueType → Except Error VState
  | none => .ok st
  | some t => vpopExpect st t

/-- Push the optional result of a label or block. -/
def vpushOpt (ctx : VCtx) (st : VState) : Option ValueType → Except Error VState
  | none => .ok st
  | some t => vpush ctx st (.exact t)

/-- Push a control entry, enforcing the frame-stack limit; the branch label
type is the block result except for Loop entries, which have none. -/
def vpushCtrl (ctx : VCtx) (st : VState) (kind : BlockFrameType)
    (bt : BlockType) : Except Error VState :=
  if st.ctrl.length ≥ ctx.frame_stack_limit then
    .error (.Validation "exceeded frame stack limit")
  else .ok { st with ctrl :=
    { frame_kind := kind
      label_type := match kind with
        | .Loop => none
        | _ => bt.resultType
      end_type := bt.resultType
      height := st.stack.length
      unreachable := false } :: st.ctrl }

/-- Mark the current frame unreachable, cutting the stack to its height. -/
def vsetUnreachable (st : VState) : Except Error VState :=
  match st.ctrl with
  | [] => .error (.Validation "unreachable outside any frame")
  | f :: rest => .ok
      { stack := st.stack.drop (st.stack.length - f.height),
        ctrl := { f with unreachable := true } :: rest }

/-- The nth enclosing control entry (0 is innermost). -/
def vframeAt (st : VState) (n : Nat) : Except Error ValidationFrame :=
  match st.ctrl.get? n with
  | some f => .ok f
  | none => .error (.Validation "branch label out of range")

/-- Pop the parameters (newest first) and push the result of a call. -/
def vcall (ctx : VCtx) (st : VState) (ft : FunctionType) :
    Except Error VState := do
  let st ← ft.params.reverse.foldlM (fun st t => vpopExpect st t) st
  vpushOpt ctx st ft.return_type

/-- Require a memory in scope (spec 4.3: memory opcodes need a memory). -/
def vrequireMemory (ctx : VCtx) : Except Error Unit :=
  if moduleHasMemory ctx.module then .ok ()
  else .error (.Validation "memory instruction without memory")

/-- Validate one opcode (spec section 4.3, over the embedded subset). -/
def validateOp (ctx : VCtx) (st : VState) : Opcode → Except Error VState
  | .Unreachable => vsetUnreachable st
  | .Nop => .ok st
  | .Block bt => vpushCtrl ctx st .Block bt
  | .Loop bt => vpushCtrl ctx st .Loop bt
  | .If bt => do
      let st ← vpopExpect st .i32
      vpushCtrl ctx st .IfTrue bt
  | .Else =>
      (match st.ctrl with
       | f :: rest =>
           if f.frame_kind = .IfTrue then
             .ok { stack := st.stack.drop (st.stack.length - f.height),
                   ctrl := { f with frame_kind := .IfFalse, unreachable := false } :: rest }
           else .error (.Validation "misplaced else instruction")
       | [] => .error (.Validation "misplaced else instruction"))
  | .End =>
      (match st.ctrl with
       | f :: rest => do
           let st ← vpopOpt st f.end_type
           if st.stack.length ≠ f.height ∧ ¬f.unreachable then
             .error (.Validation "unexpected stack height at end")
           else do
             let st := { stack := st.stack.drop (st.stack.length - f.height),
                         ctrl := rest }
             vpushOpt ctx st f.end_type
       | [] => .error (.Validation "misplaced end instruction"))
  | .Br n => do
      let f ← vframeAt st n
      let st ← vpopOpt st f.label_type
      vsetUnreachable st
  | .BrIf n => do
      let st ← vpopExpect st .i32
      let f ← vframeAt st n
      let st ← vpopOpt st f.label_type
      vpushOpt ctx st f.label_type
  | .BrTable table default => do
      let st ← vpopExpect st .i32
      let d ← vframeAt st default
      let _ ← table.foldlM (fun _ n => do
        let f ← vframeAt st n
        if f.label_type = d.label_type then .ok ()
        else .error (.Validation "br_table targets disagree")) ()
      let st ← vpopOpt st d.label_type
      vsetUnreachable st
  | .Return => do
      let st ← vpopOpt st ctx.return_type.resultType
      vsetUnreachable st
  | .Call idx =>
      (match functionTypeAt ctx.module idx with
       | none => .error (.Validation "call of unknown function")
       | some ft => vcall ctx st ft)
  | .CallIndirect type_idx _ => do
      if moduleHasTable ctx.module then
        let st ← vpopExpect st .i32
        match (ctx.module.type_section.getD []).get? type_idx with
        | none => .error (.Validation "indirect call of unknown type")
        | some ft => vcall ctx st ft
      else .error (.Validation "indirect call without table")
  | .Drop => do
      let (_, st) ← vpopAny st
      .ok st
  | .GetLocal i =>
      (match ctx.locals.get? i with
       | none => .error (.Validation "unknown local")
       | some t => vpush ctx st (.exact t))
  | .SetLocal i =>
      (match ctx.locals.get? i with
       | none => .error (.Validation "unknown local")
       | some t => vpopExpect st t)
  | .TeeLocal i =>
      (match ctx.locals.get? i with
       | none => .error (.Validation "unknown local")
       | some t => do
           let st ← vpopExpect st t
           vpush ctx st (.exact t))
  | .GetGlobal i =>
      (match globalTypeAt ctx.module i with
       | none => .error (.Validation "unknown global")
       | some gt => vpush ctx st (.exact gt.content))
  | .SetGlobal i =>
      (match globalTypeAt ctx.module i with
       | none => .error (.Validation "unknown global")
       | some gt =>
           if gt.is_mutable then vpopExpect st gt.content
           else .error (.Validation "set of immutable global"))
  | .I32Load _ _ => do
      let _ ← vrequireMemory ctx
      let st ← vpopExpect st .i32
      vpush ctx st (.exact .i32)
  | .I32Store _ _ => do
      let _ ← vrequireMemory ctx
      let st ← vpopExpect st .i32
      vpopExpect st .i32
  | .CurrentMemory _ => do
      let _ ← vrequireMemory ctx
      vpush ctx st (.exact .i32)
  | .GrowMemory _ => do
      let _ ← vrequireMemory ctx
      let st ← vpopExpect st .i32
      vpush ctx st (.exact .i32)
  | .I32Const _ => vpush ctx st (.exact .i32)
  | .I64Const _ => vpush ctx st (.exact .i64)
  | .F32Const _ => vpush ctx st (.exact .f32)
  | .F64Const _ => vpush ctx st (.exact .f64)
  | .I32Eqz => do
      let st ← vpopExpect st .i32
      vpush ctx st (.exact .i32)
  | .I32Add => do
      let st ← vpopExpect st .i32
      let st ← vpopExpect st .i32
      vpush ctx st (.exact .i32)
  | .I32Sub => do
      let st ← vpopExpect st .i32
      let st ← vpopExpect st .i32
      vpush ctx st (.exact .i32)
  | .I32Shl => do
      let st ← vpopExpect st .i32
      let st ← vpopExpect st .i32
      vpush ctx st (.exact .i32)
  | .I32ShrS => do
      let st ← vpopExpect st .i32
      let st ← vpopExpect st .i32
      vpush ctx st (.exact .i32)
  | .I32ShrU => do
      let st ← vpopExpect st .i32
      let st ← vpopExpect st .i32
      vpush ctx st (.exact .i32)
  | .I32Rotl => do
      let st ← vpopExpect st .i32
      let st ← vpopExpect st .i32
      vpush ctx st (.exact .i32)
  | .I32Rotr => do
      let st ← vpopExpect st .i32
      let st ← vpopExpect st .i32
      vpush ctx st (.exact .i32)

/-- Validate an opcode sequence from a state; the control stack must be
consumed exactly by the trailing End. -/
def validateOps (ctx : VCtx) : VState → List Opcode → Except Error Unit
  | st, [] =>
      if st.ctrl.isEmpty then .ok ()
      else .error (.Validation "function body not closed")
  | st, op :: rest => do
      let st' ← validateOp ctx st op
      validateOps ctx st' rest

/-- Validate one function body against its signature (spec section 4.3):
start inside the synthetic Function frame whose label and end types are
the declared result. -/
def validate_function_body (m : ParsedModule) (locals : List ValueType)
    (block_type : BlockType) (ops : List Opcode) : Except Error Unit :=
  validateOps
    { module := m, locals := locals, return_type := block_type,
      value_stack_limit := DEFAULT_VALUE_STACK_LIMIT,
      frame_stack_limit := DEFAULT_FRAME_STACK_LIMIT }
    { stack := [],
      ctrl := [{ frame_kind := .Function,
                 label_type := block_type.resultType,
                 end_type := block_type.resultType,
                 height := 0, unreachable := false }] }
    ops

/-! Module instantiation (module.rs): the ModuleInstance record, its
import-aware accessors, complete_initialization and new. -/

/-- Message carried by an error (used by the Rust From<Error> for String
conversions wrapping segment errors into Initialization). -/
def Error.message : Error → String
  | .Validation m => m
  | .Initialization m => m
  | .Program m => m
  | .Function m => m
  | .Memory m => m
  | .Table m => m
  | .Global m => m
  | .Stack m => m
  | .Local m => m
  | .Trap m => m

/-- Per-kind item-index conversion for functions.  Modelled from the spec
(section 3, ItemIndex). -/
def ModuleImports.parse_function_index (imp : ModuleImports) :
    ItemIndex → ItemIndex
  | .IndexSpace i =>
      if i < imp.function_import_count then .External i
      else .Internal (i - imp.function_import_count)
  | x => x

/-- Per-kind item-index conversion for memories.  Modelled from the spec. -/
def ModuleImports.parse_memory_index (imp : ModuleImports) :
    ItemIndex → ItemIndex
  | .IndexSpace i =>
      if i < imp.memory_import_count then .External i
      else .Internal (i - imp.memory_import_count)
  | x => x

/-- Per-kind item-index conversion for tables.  Modelled from the spec. -/
def ModuleImports.parse_table_index (imp : ModuleImports) :
    ItemIndex → ItemIndex
  | .IndexSpace i =>
      if i < imp.table_import_count then .External i
      else .Internal (i - imp.table_import_count)
  | x => x

/-- Resolve a memory import.  Modelled from the spec (section 4.2): the
exporter's initial must be at least the importer's declared initial, and a
declared importer maximum requires an exporter maximum no larger. -/
def ModuleImports.memory (imp : ModuleImports) (e : ImportEntry) :
    Except Error MemoryInstance :=
  match imp.lookup_memory e.module e.field with
  | none => .error (.Program "missing module or export for memory import")
  | some m =>
      match e.external with
      | .Memory limits =>
          if m.initial < limits.initial then
            .error (.Validation "imported memory initial too small")
          else
            (match limits.maximum with
             | none => .ok m
             | some importer_max =>
                 match m.maximum with
                 | none => .error (.Validation "imported memory has no maximum")
                 | some exporter_max =>
                     if exporter_max ≤ importer_max then .ok m
                     else .error (.Validation "imported memory maximum too large"))
      | _ => .error (.Memory "expected memory import entry")

/-- Resolve a table import.  Modelled from the spec (section 4.2), with the
same limit rules as memories. -/
def ModuleImports.table (imp : ModuleImports) (e : ImportEntry) :
    Except Error TableInstance :=
  match imp.lookup_table e.module e.field with
  | none => .error (.Program "missing module or export for table import")
  | some t =>
      match e.external with
      | .Table limits =>
          if t.elems.length < limits.initial then
            .error (.Validation "imported table initial too small")
          else
            (match limits.maximum with
             | none => .ok t
             | some importer_max =>
                 if t.elems.length ≤ importer_max then .ok t
                 else .error (.Validation "imported table maximum too large"))
      | _ => .error (.Table "expected table import entry")

/-- Module instance under construction (module.rs lines 66-77): the parsed
module, its imports resolver, and the owned tables, memories and globals. -/
structure ModuleInstanceRec where
  module : ParsedModule
  imports : ModuleImports
  tables : List TableInstance
  memory : List MemoryInstance
  globals : List Variable

/-- check_limits (module.rs lines 507-515): a declared maximum below the
initial is a Validation error. -/
def check_limits (limits : ResizableLimits) : Except Error Unit :=
  match limits.maximum with
  | some maximum =>
      if maximum < limits.initial then
        .error (.Validation "maximum limit is lesser than minimum")
      else .ok ()
  | none => .ok ()

/-- MemoryInstance::new.  Modelled from the spec (section 3): check the
limits, cap the page count at 65536, allocate the initial pages zeroed. -/
def MemoryInstance.new (limits : ResizableLimits) : Except Error MemoryInstance := do
  let _ ← check_limits limits
  if limits.initial > 65536 then
    .error (.Memory "initial memory size exceeds the page cap")
  else
    .ok { data := List.replicate (limits.initial * LINEAR_MEMORY_PAGE_SIZE) 0,
          initial := limits.initial, maximum := limits.maximum }

/-- TableInstance::new.  Modelled from the spec (section 3): check the
limits, allocate the initial slots empty. -/
def TableInstance.new (limits : ResizableLimits) : Except Error TableInstance := do
  let _ ← check_limits limits
  .ok { elems := List.replicate limits.initial none }

/-- TableInstance::set_raw: write the members at the offset, failing past
the end of the table.  Modelled from the spec (sections 4.4 and 7). -/
def TableInstance.set_raw (t : TableInstance) (offset : Nat)
    (members : List Nat) : Except Error TableInstance :=
  if offset + members.length > t.elems.length then
    .error (.Table "trying to update region out of table bounds")
  else .ok { elems := t.elems.take offset ++ members.map some ++
    t.elems.drop (offset + members.length) }

/-- VariableInstance::new_global.  Modelled from the spec (section 3): a
cell with the declared mutability and content type. -/
def Variable.new_global (gt : GlobalType) (v : RuntimeValue) :
    Except Error Variable :=
  Variable.new gt.is_mutable gt.content.toVariableType v

/-- require_function (module.rs lines 285-299): the function-index-space
index must name an import-section or function-section entry. -/
def ModuleInstanceRec.require_function (inst : ModuleInstanceRec)
    (index : ItemIndex) : Except Error Unit :=
  match inst.imports.parse_function_index index with
  | .IndexSpace _ => .error (.Function "unreachable index form")
  | .Internal i =>
      (match inst.module.function_section with
       | none => .error (.Function "missing internal function")
       | some entries =>
           match entries.get? i with
           | some _ => .ok ()
           | none => .error (.Function "missing internal function"))
  | .External i =>
      (match inst.module.import_section with
       | none => .error (.Function "missing external function")
       | some entries =>
           match entries.get? i with
           | some _ => .ok ()
           | none => .error (.Function "missing external function"))

/-- require_function_type (module.rs lines 301-308): resolve a type index
into the type section or fail with Validation. -/
def ModuleInstanceRec.require_function_type (inst : ModuleInstanceRec)
    (type_index : Nat) : Except Error FunctionType :=
  match inst.module.type_section with
  | none => .error (.Validation "type reference in module without type section")
  | some types =>
      match types.get? type_index with
      | some ft => .ok ft
      | none => .error (.Validation "missing function type")

/-- ModuleInstance::global (module.rs lines 376-387): import-aware lookup
of a global. -/
def ModuleInstanceRec.global (inst : ModuleInstanceRec) (index : ItemIndex) :
    Except Error Variable :=
  match inst.imports.parse_global_index index with
  | .IndexSpace _ => .error (.Global "unreachable index form")
  | .Internal i =>
      (match inst.globals.get? i with
       | some g => .ok g
       | none => .error (.Global "trying to access global with out-of-range local index"))
  | .External i =>
      (match inst.module.import_section with
       | none => .error (.Global "trying to access external global in module without import section")
       | some entries =>
           match entries.get? i with
           | none => .error (.Global "trying to access external global with out-of-range index")
           | some e => inst.imports.global e)

/-- ModuleInstance::memory (module.rs lines 363-374): import-aware lookup
of a memory. -/
def ModuleInstanceRec.memoryAt (inst : ModuleInstanceRec) (index : ItemIndex) :
    Except Error MemoryInstance :=
  match inst.imports.parse_memory_index index with
  | .IndexSpace _ => .error (.Memory "unreachable index form")
  | .Internal i =>
      (match inst.memory.get? i with
       | some m => .ok m
       | none => .error (.Memory "trying to access memory with out-of-range local index"))
  | .External i =>
      (match inst.module.import_section with
       | none => .error (.Memory "trying to access external memory in module without import section")
       | some entries =>
           match entries.get? i with
           | none => .error (.Memory "trying to access external memory with out-of-range index")
           | some e => inst.imports.memory e)

/-- ModuleInstance::table (module.rs lines 350-361): import-aware lookup
of a table. -/
def ModuleInstanceRec.tableAt (inst : ModuleInstanceRec) (index : ItemIndex) :
    Except Error TableInstance :=
  match inst.imports.parse_table_index index with
  | .IndexSpace _ => .error (.Table "unreachable index form")
  | .Internal i =>
      (match inst.tables.get? i with
       | some t => .ok t
       | none => .error (.Table "trying to access table with out-of-range local index"))
  | .External i =>
      (match inst.module.import_section with
       | none => .error (.Table "trying to access external table in module without import section")
       | some entries =>
           match entries.get? i with
           | none => .error (.Table "trying to access external table with out-of-range index")
           | some e => inst.imports.table e)

/-- Export-section loop of complete_initialization (module.rs lines
180-205): reject a duplicate export name with Validation, an exported
mutable global with Validation, and a dangling exported index. -/
def checkExports (inst : ModuleInstanceRec) :
    List ExportEntry → List String → Except Error Unit
  | [], _ => .ok ()
  | e :: rest, names =>
      if names.contains e.field then
        .error (.Validation "duplicate export with same name")
      else do
        let _ ← (match e.internal with
          | .Function idx => inst.require_function (.IndexSpace idx)
          | .Global idx => do
              let g ← inst.global (.IndexSpace idx)
              if g.is_mutable then
                .error (.Validation "trying to export mutable global")
              else .ok ()
          | .Memory idx => (inst.memoryAt (.IndexSpace idx)).map fun _ => ()
          | .Table idx => (inst.tableAt (.IndexSpace idx)).map fun _ => ())
        checkExports inst rest (e.field :: names)

/-- Import-section loop of complete_initialization (module.rs lines
209-221): check function type references, reject mutable global imports
with Validation, check memory and table limits. -/
def checkImports (inst : ModuleInstanceRec) :
    List ImportEntry → Except Error Unit
  | [] => .ok ()
  | e :: rest => do
      let _ ← (match e.external with
        | .Function type_idx =>
            (inst.require_function_type type_idx).map fun _ => ()
        | .Global gt =>
            if gt.is_mutable then
              .error (.Validation "trying to import mutable global")
            else .ok ()
        | .Memory memory_type => check_limits memory_type
        | .Table table_type => check_limits table_type)
      checkImports inst rest

/-- Function-body validation loop of complete_initialization (module.rs
lines 241-254): validate each body against its declared signature with the
locals being the parameters followed by the declared locals. -/
def validateBodies (inst : ModuleInstanceRec) :
    List (Nat × CodeBody) → Except Error Unit
  | [] => .ok ()
  | (type_ref, body) :: rest => do
      let ft ← inst.require_function_type type_ref
      let locals := ft.params ++
        (body.locals.flatMap fun l => List.replicate l.count l.value_type)
      let block_type := match ft.return_type with
        | some vt => BlockType.Value vt
        | none => BlockType.NoResult
      let _ ← validate_function_body inst.module locals block_type body.code
      validateBodies inst rest

/-- Data-section loop of complete_initialization (module.rs lines 257-265):
evaluate each offset initializer, then copy the bytes into the referenced
memory; a missing memory or an out-of-bounds write is an Initialization
error.  Only writes to a module-owned (internal) memory are recorded in
the returned instance; an external target is bounds-checked against the
exporter's memory. -/
def applyDataSegments (inst : ModuleInstanceRec) :
    List DataSegment → Except Error ModuleInstanceRec
  | [] => .ok inst
  | seg :: rest => do
      let offset_value ← get_initializer seg.offset inst.module inst.imports
      let offset ← (match offset_value with
        | .I32 v => .ok (toU32 v)
        | _ => .error (.Stack "32-bit int value expected"))
      match inst.imports.parse_memory_index (.IndexSpace seg.index) with
      | .Internal i =>
          (match inst.memory.get? i with
           | none => .error (.Initialization "DataSegment initializes non-existant MemoryInstance")
           | some m => do
               let m' ← (m.set offset seg.value).mapError
                 fun e => .Initialization e.message
               applyDataSegments
                 { inst with memory := inst.memory.set i m' } rest)
      | _ => do
          let m ← (inst.memoryAt (.IndexSpace seg.index)).mapError
            fun e => .Initialization e.message
          let _ ← (m.set offset seg.value).mapError
            fun e => .Initialization e.message
          applyDataSegments inst rest

/-- Element-section loop of complete_initialization (module.rs lines
268-280): evaluate each offset initializer, require every member function
to exist, then write the members into the referenced table; a missing
table or an out-of-bounds write is an Initialization error. -/
def applyElementSegments (inst : ModuleInstanceRec) :
    List ElementSegment → Except Error ModuleInstanceRec
  | [] => .ok inst
  | seg :: rest => do
      let offset_value ← get_initializer seg.offset inst.module inst.imports
      let offset ← (match offset_value with
        | .I32 v => .ok (toU32 v)
        | _ => .error (.Stack "32-bit int value expected"))
      let _ ← seg.members.foldlM
        (fun _ idx => inst.require_function (.IndexSpace idx)) ()
      match inst.imports.parse_table_index (.IndexSpace seg.index) with
      | .Internal i =>
          (match inst.tables.get? i with
           | none => .error (.Initialization "ElementSegment initializes non-existant Table")
           | some t => do
               let t' ← (t.set_raw offset seg.members).mapError
                 fun e => .Initialization e.message
               applyElementSegments
                 { inst with tables := inst.tables.set i t' } rest)
      | _ => do
          let t ← (inst.tableAt (.IndexSpace seg.index)).mapError
            fun e => .Initialization e.message
          let _ ← (t.set_raw offset seg.members).mapError
            fun e => .Initialization e.message
          applyElementSegments inst rest

/-- complete_initialization (module.rs lines 172-283): validate the start
section, the export section (user modules only: unique names, immutable
exported globals, existing indices), the import section (type references,
no mutable global imports, limit checks); require at most one table and
one memory across imports and internals; require the function and code
sections to agree; validate every body of a user module; apply data and
element segments. -/
def ModuleInstanceRec.complete_initialization (inst : ModuleInstanceRec)
    (is_user_module : Bool) : Except Error ModuleInstanceRec := do
  let _ ← (match inst.module.start_section with
    | some start_function => inst.require_function (.IndexSpace start_function)
    | none => .ok ())
  let _ ← (if is_user_module then
      match inst.module.export_section with
      | some entries => checkExports inst entries []
      | none => .ok ()
    else .ok ())
  let _ ← (match inst.module.import_section with
    | some entries => checkImports inst entries
    | none => .ok ())
  let _ ← (if inst.imports.table_import_count + inst.tables.length > 1 then
      .error (.Validation "too many tables in index space")
    else .ok ())
  let _ ← (if inst.imports.memory_import_count + inst.memory.length > 1 then
      .error (.Validation "too many memory regions in index space")
    else .ok ())
  let function_section_len := (inst.module.function_section.getD []).length
  let code_section_len := (inst.module.code_section.getD []).length
  let _ ← (if function_section_len ≠ code_section_len then
      .error (.Validation "function and code section lengths disagree")
    else .ok ())
  let _ ← (if is_user_module ∧ function_section_len ≠ 0 then
      validateBodies inst
        ((inst.module.function_section.getD []).zip
          (inst.module.code_section.getD []))
    else .ok ())
  let inst ← (match inst.module.data_section with
    | some segments => applyDataSegments inst segments
    | none => .ok inst)
  let inst ← (match inst.module.elements_section with
    | some segments => applyElementSegments inst segments
    | none => .ok inst)
  .ok inst

/-- Collection of the defined memories (module.rs lines 130-136). -/
def collectMemories : List ResizableLimits → Except Error (List MemoryInstance)
  | [] => .ok []
  | limits :: rest => do
      let m ← MemoryInstance.new limits
      let ms ← collectMemories rest
      .ok (m :: ms)

/-- Collection of the defined tables (module.rs lines 139-145). -/
def collectTables : List ResizableLimits → Except Error (List TableInstance)
  | [] => .ok []
  | limits :: rest => do
      let t ← TableInstance.new limits
      let ts ← collectTables rest
      .ok (t :: ts)

/-- Collection of the defined globals (module.rs lines 148-158): evaluate
each initializer (failures become Initialization errors) and build the
global cell. -/
def collectGlobals (m : ParsedModule) (imports : ModuleImports) :
    List GlobalEntry → Except Error (List Variable)
  | [] => .ok []
  | g :: rest => do
      let v ← (get_initializer g.init_expr m imports).mapError
        fun e => .Initialization e.message
      let var ← Variable.new_global g.global_type v
      let vars ← collectGlobals m imports rest
      .ok (var :: vars)

/-- ModuleInstance::new_with_validation_flag (module.rs lines 125-169):
instantiate memories, tables and globals, then complete initialization;
any failure aborts with the error and no instance is produced.  The
imports resolver is passed in (spec-modelled: the registry lookup of
imports.rs is not part of src). -/
def ModuleInstance.new_with_validation_flag (imports : ModuleImports)
    (module : ParsedModule) (is_user_module : Bool) :
    Except Error ModuleInstanceRec := do
  let memory ← (match module.memory_section with
    | some entries => collectMemories entries
    | none => .ok [])
  let tables ← (match module.table_section with
    | some entries => collectTables entries
    | none => .ok [])
  let globals ← (match module.global_section with
    | some entries => collectGlobals module imports entries
    | none => .ok [])
  let inst : ModuleInstanceRec :=
    { module := module, imports := imports, tables := tables,
      memory := memory, globals := globals }
  inst.complete_initialization is_user_module

/-- ModuleInstance::new (module.rs lines 119-122): user modules are
instantiated with validation on. -/
def ModuleInstance.new (imports : ModuleImports) (module : ParsedModule) :
    Except Error ModuleInstanceRec :=
  ModuleInstance.new_with_validation_flag imports module true

/-! The interpreter dispatch loop (runner.rs): the remaining instruction
handlers of the embedded subset, run_instruction, do_run_function and
run_function. -/

/-- Pop a pair asserting I32 tags; the top of the stack is the right
operand (pop_pair_as of stack.rs).  Modelled from the spec (section 4.6). -/
def StackWithLimit.popPairAsI32 (st : StackWithLimit RuntimeValue) :
    Except Error ((Int × Int) × StackWithLimit RuntimeValue) := do
  let (right, st1) ← st.popAsI32
  let (left, st2) ← st1.popAsI32
  .ok ((left, right), st2)

/-- I32 wrapping addition.  Modelled from the spec: integer arithmetic
wraps two's-complement. -/
def i32_add (a b : Int) : Int := ofU32 ((toU32 a + toU32 b) % U32_MOD)

/-- I32 wrapping subtraction.  Modelled from the spec. -/
def i32_sub (a b : Int) : Int := ofU32 ((toU32 a + (U32_MOD - toU32 b)) % U32_MOD)

/-- run_unreachable (runner.rs lines 359-361): an unconditional trap. -/
def run_unreachable (_s : Store) (_c : FunctionContext) : StepResult :=
  .error (.Trap "programmatic")

/-- run_nop (runner.rs lines 363-365). -/
def run_nop (s : Store) (c : FunctionContext) : StepResult :=
  .ok (s, c, .RunNextInstruction)

/-- run_block (runner.rs lines 367-370). -/
def run_block (s : Store) (c : FunctionContext) (labels : Labels)
    (block_type : BlockType) : StepResult := do
  let c' ← c.push_frame labels .Block block_type
  .ok (s, c', .RunNextInstruction)

/-- run_loop (runner.rs lines 372-375). -/
def run_loop (s : Store) (c : FunctionContext) (labels : Labels)
    (block_type : BlockType) : StepResult := do
  let c' ← c.push_frame labels .Loop block_type
  .ok (s, c', .RunNextInstruction)

/-- run_if (runner.rs lines 377-390): pop the condition; true pushes an
IfTrue frame; false jumps to the Else position, pushing an IfFalse frame
only when the label map marks an Else (otherwise the block had no else
branch and execution resumes after it). -/
def run_if (s : Store) (c : FunctionContext) (labels : Labels)
    (block_type : BlockType) : StepResult := do
  let (branch, vs) ← c.value_stack.popAsBool
  let c := { c with value_stack := vs }
  if branch then do
    let c' ← c.push_frame labels .IfTrue block_type
    .ok (s, c', .RunNextInstruction)
  else
    let else_pos := (labels.find c.position).getD 0
    match labels.find else_pos with
    | none => .ok (s, { c with position := else_pos }, .RunNextInstruction)
    | some _ => do
        let c := { c with position := else_pos }
        let c' ← c.push_frame labels .IfFalse block_type
        .ok (s, c', .RunNextInstruction)

/-- run_else (runner.rs lines 392-397): pop the IfTrue frame and jump past
the matching End. -/
def run_else (s : Store) (c : FunctionContext) (labels : Labels) : StepResult := do
  let end_pos := (labels.find c.position).getD 0
  let c' ← c.pop_frame false
  .ok (s, { c' with position := end_pos }, .RunNextInstruction)

/-- run_end (runner.rs lines 399-402). -/
def run_end (s : Store) (c : FunctionContext) : StepResult := do
  let c' ← c.pop_frame false
  .ok (s, c', .End)

/-- run_br (runner.rs lines 404-406). -/
def run_br (s : Store) (c : FunctionContext) (label_idx : Nat) : StepResult :=
  .ok (s, c, .Branch label_idx)

/-- run_br_if (runner.rs lines 408-414). -/
def run_br_if (s : Store) (c : FunctionContext) (label_idx : Nat) : StepResult := do
  let (cond, vs) ← c.value_stack.popAsBool
  if cond then .ok (s, { c with value_stack := vs }, .Branch label_idx)
  else .ok (s, { c with value_stack := vs }, .RunNextInstruction)

/-- run_br_table (runner.rs lines 416-419): the popped index selects a
label, out-of-range indices taking the default. -/
def run_br_table (s : Store) (c : FunctionContext) (table : List Nat)
    (default : Nat) : StepResult := do
  let (index, vs) ← c.value_stack.popAsU32
  .ok (s, { c with value_stack := vs },
    .Branch ((table.get? index).getD default))

/-- run_return (runner.rs lines 421-423). -/
def run_return (s : Store) (c : FunctionContext) : StepResult :=
  .ok (s, c, .Return)

/-- run_call (runner.rs lines 425-428). -/
def run_call (s : Store) (c : FunctionContext) (func_idx : Nat) : StepResult :=
  .ok (s, c, .ExecuteCall (s.resolve_func c.module func_idx))

/-- run_drop (runner.rs lines 447-453). -/
def run_drop (s : Store) (c : FunctionContext) : StepResult := do
  let (_, vs) ← c.value_stack.pop
  .ok (s, { c with value_stack := vs }, .RunNextInstruction)

/-- FunctionContext::get_local (runner.rs lines 1055-1059). -/
def FunctionContext.get_local (c : FunctionContext) (index : Nat) :
    Except Error RuntimeValue :=
  match c.locals.get? index with
  | some l => .ok l.get
  | none => .error (.Local "expected to have local with index")

/-- FunctionContext::set_local (runner.rs lines 1048-1053). -/
def FunctionContext.set_local (c : FunctionContext) (index : Nat)
    (value : RuntimeValue) : Except Error FunctionContext :=
  match c.locals.get? index with
  | none => .error (.Local "expected to have local with index")
  | some l => do
      let l' ← l.set value
      .ok { c with locals := c.locals.set index l' }

/-- run_get_local (runner.rs lines 471-475). -/
def run_get_local (s : Store) (c : FunctionContext) (index : Nat) : StepResult := do
  let value ← c.get_local index
  let vs ← c.value_stack.push value
  .ok (s, { c with value_stack := vs }, .RunNextInstruction)

/-- run_set_local (runner.rs lines 477-481). -/
def run_set_local (s : Store) (c : FunctionContext) (index : Nat) : StepResult := do
  let (arg, vs) ← c.value_stack.pop
  let c' ← FunctionContext.set_local { c with value_stack := vs } index arg
  .ok (s, c', .RunNextInstruction)

/-- run_tee_local (runner.rs lines 483-487): read the top without popping
and store it into the local. -/
def run_tee_local (s : Store) (c : FunctionContext) (index : Nat) : StepResult := do
  let arg ← c.value_stack.top
  let c' ← c.set_local index arg
  .ok (s, c', .RunNextInstruction)

/-- Global id at the given index of the module's global index space.
Modelled from the spec (section 4.1). -/
def Store.resolve_global (s : Store) (mid idx : Nat) : Nat :=
  ((s.moduleRec mid).global_ids.get? idx).getD 0

/-- Read a global cell by id (sentinel zero cell on a miss).  Modelled from
the spec (section 4.1). -/
def Store.read_global (s : Store) (gid : Nat) : RuntimeValue :=
  ((s.globals.get? gid).getD ⟨true, .i32, .I32 0⟩).get

/-- Write a global cell by id, honouring the cell's mutability and type
checks.  Modelled from the spec (sections 3 and 4.1). -/
def Store.write_global (s : Store) (gid : Nat) (v : RuntimeValue) :
    Except Error Store := do
  let g := (s.globals.get? gid).getD ⟨true, .i32, .I32 0⟩
  let g' ← g.set v
  .ok { s with globals := s.globals.set gid g' }

/-- run_get_global (runner.rs lines 489-498). -/
def run_get_global (s : Store) (c : FunctionContext) (index : Nat) : StepResult := do
  let global := s.resolve_global c.module index
  let val := s.read_global global
  let vs ← c.value_stack.push val
  .ok (s, { c with value_stack := vs }, .RunNextInstruction)

/-- run_set_global (runner.rs lines 500-509). -/
def run_set_global (s : Store) (c : FunctionContext) (index : Nat) : StepResult := do
  let (val, vs) ← c.value_stack.pop
  let global := s.resolve_global c.module index
  let s' ← s.write_global global val
  .ok (s', { c with value_stack := vs }, .RunNextInstruction)

/-- run_const (runner.rs lines 604-610). -/
def run_const (s : Store) (c : FunctionContext) (val : RuntimeValue) : StepResult := do
  let vs ← c.value_stack.push val
  .ok (s, { c with value_stack := vs }, .RunNextInstruction)

/-- Shared shape of the unary I32 handlers (run_eqz at i32): pop one I32,
push the I32 image. -/
def run_unop_i32 (f : Int → Int) (s : Store) (c : FunctionContext) : StepResult := do
  let (v, vs) ← c.value_stack.popAsI32
  let vs' ← vs.push (.I32 (f v))
  .ok (s, { c with value_stack := vs' }, .RunNextInstruction)

/-- Shared shape of the binary I32 handlers (run_add, run_sub, run_shl,
run_shr, run_rotl, run_rotr at i32): pop the pair, push the I32 image. -/
def run_binop_i32 (f : Int → Int → Int) (s : Store) (c : FunctionContext) :
    StepResult := do
  let ((left, right), vs) ← c.value_stack.popPairAsI32
  let vs' ← vs.push (.I32 (f left right))
  .ok (s, { c with value_stack := vs' }, .RunNextInstruction)

/-- run_instruction (runner.rs lines 165-356) over the embedded opcode
subset: dispatch to the per-instruction handler. -/
def run_instruction (s : Store) (c : FunctionContext) (labels : Labels) :
    Opcode → StepResult
  | .Unreachable => run_unreachable s c
  | .Nop => run_nop s c
  | .Block block_type => run_block s c labels block_type
  | .Loop block_type => run_loop s c labels block_type
  | .If block_type => run_if s c labels block_type
  | .Else => run_else s c labels
  | .End => run_end s c
  | .Br idx => run_br s c idx
  | .BrIf idx => run_br_if s c idx
  | .BrTable table default => run_br_table s c table default
  | .Return => run_return s c
  | .Call index => run_call s c index
  | .CallIndirect index _reserved => run_call_indirect s c index
  | .Drop => run_drop s c
  | .GetLocal index => run_get_local s c index
  | .SetLocal index => run_set_local s c index
  | .TeeLocal index => run_tee_local s c index
  | .GetGlobal index => run_get_global s c index
  | .SetGlobal index => run_set_global s c index
  | .I32Load _align offset => run_load_gen 4 i32Decode s c offset
  | .I32Store _align offset => run_store_gen i32TryEncode s c offset
  | .CurrentMemory _ => run_current_memory s c
  | .GrowMemory _ => run_grow_memory s c
  | .I32Const val => run_const s c (.I32 val)
  | .I64Const val => run_const s c (.I64 val)
  | .F32Const val => run_const s c (.F32 val)
  | .F64Const val => run_const s c (.F64 val)
  | .I32Eqz => run_unop_i32 (fun v => if v = 0 then 1 else 0) s c
  | .I32Add => run_binop_i32 i32_add s c
  | .I32Sub => run_binop_i32 i32_sub s c
  | .I32Shl => run_binop_i32 i32_shl s c
  | .I32ShrS => run_binop_i32 i32_shr_s s c
  | .I32ShrU => run_binop_i32 i32_shr_u s c
  | .I32Rotl => run_binop_i32 i32_rotl s c
  | .I32Rotr => run_binop_i32 i32_rotr s c

/-- Result of the inner do_run_function loop: the function returned a
value, requested a nested call (the updated caller and the fresh callee
context), or hit the host-call hole where the process aborts. -/
inductive RunResultM where
  | Ret (v : Option RuntimeValue)
  | NestedCall (caller next : FunctionContext)
  | Panicked

/-- Return-value extraction at the end of do_run_function (runner.rs lines
159-162): pop the declared result from the value stack. -/
def retValue (s : Store) (c : FunctionContext) :
    Except Error (Option (Store × RunResultM)) :=
  match c.return_type with
  | .Value _ => do
      let (v, _) ← c.value_stack.pop
      .ok (some (s, .Ret (some v)))
  | .NoResult => .ok (some (s, .Ret none))

/-- do_run_function (runner.rs lines 127-163), with fuel for termination
(none is fuel exhaustion): run instructions until a Branch empties the
frame stack, an End empties it, a Return breaks, or a call is requested; a
call to a host function aborts the process in FunctionContext::nested,
surfaced as Panicked.  The Rust code indexes the body directly, which
validated bodies (ending in End) never overrun; the overrun is modelled
as a Trap error. -/
def doRunFunction (s : Store) : Nat → FunctionContext → List Opcode → Labels →
    Except Error (Option (Store × RunResultM))
  | 0, _, _, _ => .ok none
  | fuel + 1, c, body, labels =>
      match body.get? c.position with
      | none => .error (.Trap "instruction position out of bounds")
      | some instruction => do
          let (s', c', outcome) ← run_instruction s c labels instruction
          match outcome with
          | .RunNextInstruction =>
              doRunFunction s' fuel { c' with position := c'.position + 1 }
                body labels
          | .Branch index => do
              let (c'', brk) ← runBranch index c'
              if brk then retValue s' c''
              else doRunFunction s' fuel c'' body labels
          | .ExecuteCall func_ref =>
              (match FunctionContext.nested
                  { c' with position := c'.position + 1 } s' func_ref with
               | .panic => .ok (some (s', .Panicked))
               | .value r => do
                   let (caller, nc) ← r
                   .ok (some (s', .NestedCall caller nc)))
          | .End =>
              if c'.frame_stack.values.isEmpty then retValue s' c'
              else doRunFunction s' fuel c' body labels
          | .Return => retValue s' c'

/-- Locals drain of the host-function hole (runner.rs lines 95-98): move
every local's value back onto the context's own value stack. -/
def pushAll (vs : StackWithLimit RuntimeValue) :
    List Variable → Except Error (StackWithLimit RuntimeValue)
  | [] => .ok vs
  | l :: rest => do
      let vs' ← vs.push l.get
      pushAll vs' rest

/-- Outcome of the outer run_function loop: a returned value, an error, a
process abort, or fuel exhaustion. -/
inductive RunOut where
  | ret (v : Option RuntimeValue)
  | err (e : Error)
  | panicked
  | fuel_out

/-- Interpreter::run_function (runner.rs lines 73-125), with fuel: drive a
stack of function contexts (the list head is the back of the deque); a
context whose resolved function has no body drains its locals onto its
value stack and then aborts the process (the host-call TODO), surfaced as
panicked; otherwise the context is initialized on first entry and
do_run_function drives it; returns push their value onto the caller, calls
push the callee.  The returned list records every function the loop
entered, newest first. -/
def runFunctionLoop : Nat → Store → List FunctionContext → List Nat →
    RunOut × List Nat
  | 0, _, _, trace => (.fuel_out, trace)
  | fuel + 1, s, stack, trace =>
      match stack with
      | [] => (.panicked, trace)
      | c :: restStack =>
          match (s.resolveFunc c.function).body with
          | none =>
              (match pushAll c.value_stack c.locals with
               | .error e => (.err e, c.function :: trace)
               | .ok _ => (.panicked, c.function :: trace))
          | some body =>
              let cInit :=
                if ¬c.is_initialized then do
                  let c1 ← c.initialize body.locals
                  c1.push_frame body.labels .Function c.return_type
                else .ok c
              match cInit with
              | .error e => (.err e, c.function :: trace)
              | .ok c1 =>
                  match doRunFunction s fuel c1 body.opcodes body.labels with
                  | .error e => (.err e, c.function :: trace)
                  | .ok none => (.fuel_out, c.function :: trace)
                  | .ok (some (_, .Panicked)) =>
                      (.panicked, c.function :: trace)
                  | .ok (some (s', .Ret v)) =>
                      (match restStack with
                       | [] => (.ret v, c.function :: trace)
                       | caller :: rest2 =>
                           match v with
                           | some rv =>
                               (match caller.value_stack.push rv with
                                | .error e => (.err e, c.function :: trace)
                                | .ok vs =>
                                    runFunctionLoop fuel s'
                                      ({ caller with value_stack := vs } :: rest2)
                                      (c.function :: trace))
                           | none =>
                               runFunctionLoop fuel s' restStack
                                 (c.function :: trace))
                  | .ok (some (s', .NestedCall caller nc)) =>
                      runFunctionLoop fuel s' (nc :: caller :: restStack)
                        (c.function :: trace)

/-! Theorems about the embedded interpreter. -/

/-- Helper: bind on a successful Except reduces to the continuation. -/
theorem bind_ok {α β : Type} (a : α) (f : α → Except Error β) :
    (Except.ok a >>= f) = f a := rfl

/-- Helper: bind on a failed Except propagates the error. -/
theorem bind_error {α β : Type} (e : Error) (f : α → Except Error β) :
    ((Except.error e : Except Error α) >>= f) = .error e := rfl

/-- Helper: bind on a pure Except reduces to the continuation. -/
theorem pure_bind_ok {α β : Type} (a : α) (f : α → Except Error β) :
    ((pure a : Except Error α) >>= f) = f a := rfl

/-- C5: for every pair of operands the I32 shift and rotate operations
(Shl, ShrS, ShrU, Rotl, Rotr) use only the low 5 bits of the shift amount
and the I64 variants use only the low 6 bits; in particular
i32.shl(1, 33) = i32.shl(1, 1) = 2. -/
theorem shift_rotate_use_only_low_bits (a m n : Int) :
    (toU32 m &&& 31 = toU32 n &&& 31 →
      i32_shl a m = i32_shl a n ∧ i32_shr_s a m = i32_shr_s a n ∧
      i32_shr_u a m = i32_shr_u a n ∧ i32_rotl a m = i32_rotl a n ∧
      i32_rotr a m = i32_rotr a n) ∧
    (toU64 m &&& 63 = toU64 n &&& 63 →
      i64_shl a m = i64_shl a n ∧ i64_shr_s a m = i64_shr_s a n ∧
      i64_shr_u a m = i64_shr_u a n ∧ i64_rotl a m = i64_rotl a n ∧
      i64_rotr a m = i64_rotr a n) ∧
    (i32_shl 1 33 = i32_shl 1 1 ∧ i32_shl 1 1 = 2) := by
  refine ⟨fun h32 => ?_, fun h64 => ?_, by decide, by decide⟩
  · refine ⟨?_, ?_, ?_, ?_, ?_⟩ <;>
      simp only [i32_shl, i32_shr_s, i32_shr_u, i32_rotl, i32_rotr, rotl32,
        rotr32, h32]
  · refine ⟨?_, ?_, ?_, ?_, ?_⟩ <;>
      simp only [i64_shl, i64_shr_s, i64_shr_u, i64_rotl, i64_rotr, rotl64,
        rotr64, h64]

/-- Witness for C5: the I32 part applied at shift amounts 33 and 1 (equal
in their low 5 bits but not in their low 6 bits) and the I64 part at 65
and 1 (equal in their low 6 bits). -/
theorem shift_rotate_use_only_low_bits_witness :
    ((toU32 33 &&& 31 = toU32 1 &&& 31) ∧ i32_shl 5 33 = i32_shl 5 1) ∧
    ((toU64 65 &&& 63 = toU64 1 &&& 63) ∧ i64_shl 5 65 = i64_shl 5 1) :=
  ⟨⟨by decide, ((shift_rotate_use_only_low_bits 5 33 1).1 (by decide)).1⟩,
   ⟨by decide, ((shift_rotate_use_only_low_bits 5 65 1).2.1 (by decide)).1⟩⟩

/-- Helper: discarding as many frames as a prefix holds peels exactly that
prefix off the frame stack. -/
theorem discardFrames_eq (c : FunctionContext) (inner tl : List BlockFrame)
    (h : c.frame_stack.values = inner ++ tl) :
    discardFrames inner.length c =
      .ok { c with frame_stack := { c.frame_stack with values := tl } } := by
  induction inner generalizing c with
  | nil =>
      simp only [List.nil_append] at h
      simp only [List.length_nil, discardFrames, ← h]
  | cons f inner ih =>
      simp only [List.cons_append] at h
      simp only [List.length_cons, discardFrames, FunctionContext.discard_frame,
        StackWithLimit.pop, h, PW.bind_ok]
      exact ih _ rfl

/-- C3: for every Br(n) executed in a function context, the interpreter
discards n inner block frames and then pops the target frame: the
instruction pointer becomes the target frame's branch position, the value
stack is cut back to the target frame's entry height, and the block's
declared result value is carried across the jump — except that a Loop
target carries no value, and a frame pushed for a Loop records the loop
header as its branch position. -/
theorem br_discards_inner_frames_and_pops_target
    (c : FunctionContext) (n : Nat) (inner : List BlockFrame)
    (target : BlockFrame) (rest : List BlockFrame)
    (hf : c.frame_stack.values = inner ++ target :: rest)
    (hn : inner.length = n)
    (hlim : c.value_stack.values.length ≤ c.value_stack.limit) :
    (∀ t v tl, target.block_type = .Value t → target.frame_type ≠ .Loop →
       c.value_stack.values = v :: tl →
       target.value_stack_len ≤ tl.length →
       runBranch n c = .ok
         ({ c with
            frame_stack := { c.frame_stack with values := rest },
            value_stack := { c.value_stack with
              values := v :: tl.drop (tl.length - target.value_stack_len) },
            position := target.branch_position },
          rest.isEmpty)) ∧
    ((target.block_type = .NoResult ∨ target.frame_type = .Loop) →
       target.value_stack_len ≤ c.value_stack.values.length →
       runBranch n c = .ok
         ({ c with
            frame_stack := { c.frame_stack with values := rest },
            value_stack := { c.value_stack with
              values := c.value_stack.values.drop
                (c.value_stack.values.length - target.value_stack_len) },
            position := target.branch_position },
          rest.isEmpty)) ∧
    (∀ (labels : Labels) (bt : BlockType),
       c.frame_stack.values.length < c.frame_stack.limit →
       c.push_frame labels .Loop bt = .ok
         { c with frame_stack := { c.frame_stack with values :=
             { frame_type := .Loop
               block_type := bt
               begin_position := c.position
               branch_position := c.position
               end_position := (labels.find c.position).getD 0 + 1
               value_stack_len := c.value_stack.len } :: c.frame_stack.values } }) := by
  subst hn
  have hd := discardFrames_eq c inner (target :: rest) hf
  refine ⟨?_, ?_, ?_⟩
  · intro t v tl hbt hnl hv hL
    have hlen : c.value_stack.values.length = tl.length + 1 := by
      rw [hv]; simp
    have hlim' : tl.length + 1 ≤ c.value_stack.limit := by omega
    unfold runBranch
    rw [hd, PW.bind_ok]
    unfold FunctionContext.pop_frame
    simp only [StackWithLimit.pop, PW.bind_ok, hbt, hv]
    rw [if_neg (by simp [StackWithLimit.len, hlen]; omega)]
    rw [if_pos (Or.inl hnl)]
    simp only [PW.bind_ok, PW.pure_bind_ok, StackWithLimit.resize,
      StackWithLimit.push, StackWithLimit.isEmpty]
    rw [if_pos hL]
    rw [if_neg (by simp only [List.length_drop, not_le]; omega)]
    rfl
  · intro hcase hL
    unfold runBranch
    rw [hd, PW.bind_ok]
    unfold FunctionContext.pop_frame
    simp only [StackWithLimit.pop, PW.bind_ok]
    rw [if_neg (by simp only [StackWithLimit.len, not_lt]; omega)]
    cases hbt : target.block_type with
    | Value t =>
        have hft : target.frame_type = .Loop := by
          rcases hcase with h | h
          · rw [hbt] at h; cases h
          · exact h
        rw [if_neg (by simp [hft])]
        simp only [PW.pure_bind_ok, StackWithLimit.resize, StackWithLimit.isEmpty]
        rw [if_pos hL]
        rfl
    | NoResult =>
        simp only [PW.pure_bind_ok, StackWithLimit.resize, StackWithLimit.isEmpty]
        rw [if_pos hL]
        rfl
  · intro labels bt hroom
    unfold FunctionContext.push_frame
    simp only [StackWithLimit.push, PW.bind_ok]
    rw [if_neg (by omega)]
    rfl

/-- Witness for C3: a Br(1) past one inner Block frame into a Block frame
carrying an i32 result. -/
theorem br_discards_inner_frames_and_pops_target_witness :
    runBranch 1
      { is_initialized := true, function := 0, module := 0,
        return_type := .NoResult, locals := [],
        value_stack := ⟨[.I32 7, .I32 3], 10⟩,
        frame_stack := ⟨[⟨.Block, .NoResult, 2, 8, 8, 2⟩,
                         ⟨.Block, .Value .i32, 1, 9, 9, 1⟩,
                         ⟨.Function, .NoResult, 0, 0, 0, 0⟩], 10⟩,
        position := 5 } =
    .ok ({ is_initialized := true, function := 0, module := 0,
           return_type := .NoResult, locals := [],
           value_stack := ⟨[.I32 7, .I32 3], 10⟩,
           frame_stack := ⟨[⟨.Function, .NoResult, 0, 0, 0, 0⟩], 10⟩,
           position := 9 }, false) :=
  (br_discards_inner_frames_and_pops_target
      { is_initialized := true, function := 0, module := 0,
        return_type := .NoResult, locals := [],
        value_stack := ⟨[.I32 7, .I32 3], 10⟩,
        frame_stack := ⟨[⟨.Block, .NoResult, 2, 8, 8, 2⟩,
                         ⟨.Block, .Value .i32, 1, 9, 9, 1⟩,
                         ⟨.Function, .NoResult, 0, 0, 0, 0⟩], 10⟩,
        position := 5 }
      1 [⟨.Block, .NoResult, 2, 8, 8, 2⟩] ⟨.Block, .Value .i32, 1, 9, 9, 1⟩
      [⟨.Function, .NoResult, 0, 0, 0, 0⟩] rfl rfl (by decide)).1
    .i32 (.I32 7) [.I32 3] rfl (by decide) rfl (by decide)

/-- Helper: writing back the very entry a list already holds leaves the
list unchanged. -/
theorem list_set_of_get? {α : Type} (l : List α) (i : Nat) (a : α)
    (h : l[i]? = some a) : l.set i a = l := by
  induction l generalizing i with
  | nil => simp at h
  | cons x xs ih =>
      cases i with
      | zero => simp at h; simp [h]
      | succ j => simp at h; simp [ih j h]

/-- Helper: reading an unsigned 32-bit pattern below 2^31 is the identity. -/
theorem ofU32_small (n : Nat) (h : n < 2147483648) : ofU32 n = (n : Int) := by
  unfold ofU32
  rw [Nat.mod_eq_of_lt (by unfold U32_MOD; omega)]
  rw [if_pos h]

/-- C1: for every execution of the GrowMemory instruction, the interpreter
pushes the memory's old size in pages as an I32 on success, and on a
failure (growth past the declared maximum, or past the 65536-page cap when
none is declared) pushes -1; the failure is non-trapping and leaves the
memory, and hence its size, unchanged. -/
theorem grow_memory_pushes_old_size_or_minus_one
    (s : Store) (c : FunctionContext) (pv : Int) (tl : List RuntimeValue)
    (m : MemoryInstance)
    (hpv : c.value_stack.values = .I32 pv :: tl)
    (hm : s.memories[s.resolve_memory c.module DEFAULT_MEMORY_INDEX]? = some m)
    (hlim : c.value_stack.values.length ≤ c.value_stack.limit)
    (hsize : m.size < 2147483648) :
    (m.size + toU32 pv ≤ m.maximum.getD 65536 →
      run_grow_memory s c = .ok
        ({ s with memories := s.memories.set (s.resolve_memory c.module DEFAULT_MEMORY_INDEX) { m with data := m.data ++ List.replicate (toU32 pv * LINEAR_MEMORY_PAGE_SIZE) 0 } },
         { c with value_stack := { c.value_stack with values := .I32 (m.size : Int) :: tl } },
         .RunNextInstruction)) ∧
    (m.size + toU32 pv > m.maximum.getD 65536 →
      run_grow_memory s c = .ok
        (s,
         { c with value_stack := { c.value_stack with values := .I32 (-1) :: tl } },
         .RunNextInstruction)) := by
  have hlen : tl.length + 1 ≤ c.value_stack.limit := by
    rw [hpv] at hlim; simpa using hlim
  constructor
  · intro hok
    unfold run_grow_memory
    simp only [StackWithLimit.popAsU32, StackWithLimit.popAsI32,
      StackWithLimit.pop, hpv, PW.bind_ok, Store.memoryAt,
      List.get?_eq_getElem?, hm, Option.getD_some]
    unfold MemoryInstance.grow
    have hcond : (match m.maximum with
        | some maximum => decide (m.size + toU32 pv > maximum)
        | none => decide (m.size + toU32 pv > 65536)) = false := by
      cases hmx : m.maximum with
      | none => simp [hmx, Option.getD] at hok ⊢; omega
      | some mx => simp [hmx, Option.getD] at hok ⊢; omega
    simp only [hcond, Bool.false_eq_true, if_false, PW.bind_ok,
      StackWithLimit.push]
    rw [if_neg (by simp only [not_le]; omega)]
    rw [ofU32_small m.size hsize]
    rfl
  · intro hfail
    unfold run_grow_memory
    simp only [StackWithLimit.popAsU32, StackWithLimit.popAsI32,
      StackWithLimit.pop, hpv, PW.bind_ok, Store.memoryAt,
      List.get?_eq_getElem?, hm, Option.getD_some]
    unfold MemoryInstance.grow
    have hcond : (match m.maximum with
        | some maximum => decide (m.size + toU32 pv > maximum)
        | none => decide (m.size + toU32 pv > 65536)) = true := by
      cases hmx : m.maximum with
      | none => simp [hmx, Option.getD] at hfail ⊢; omega
      | some mx => simp [hmx, Option.getD] at hfail ⊢; omega
    simp only [hcond, if_true, PW.bind_ok, StackWithLimit.push]
    rw [if_neg (by simp only [not_le]; omega)]
    rw [list_set_of_get? _ _ _ hm]
    have : ofU32 4294967295 = (-1 : Int) := by decide
    rw [this]
    rfl

/-- Witness for C1: growing a zero-page memory with maximum 0 by one page
fails non-trapping, pushes -1 and leaves the store unchanged. -/
theorem grow_memory_pushes_old_size_or_minus_one_witness :
    run_grow_memory
      ⟨[], [], [⟨[], 0, some 0⟩], [], [], [⟨[], [], [0], [], []⟩]⟩
      { is_initialized := true, function := 0, module := 0,
        return_type := .NoResult, locals := [],
        value_stack := ⟨[.I32 1], 10⟩, frame_stack := ⟨[], 10⟩,
        position := 0 } =
    .ok (⟨[], [], [⟨[], 0, some 0⟩], [], [], [⟨[], [], [0], [], []⟩]⟩,
         { is_initialized := true, function := 0, module := 0,
           return_type := .NoResult, locals := [],
           value_stack := ⟨[.I32 (-1)], 10⟩, frame_stack := ⟨[], 10⟩,
           position := 0 }, .RunNextInstruction) :=
  (grow_memory_pushes_old_size_or_minus_one
      ⟨[], [], [⟨[], 0, some 0⟩], [], [], [⟨[], [], [0], [], []⟩]⟩
      { is_initialized := true, function := 0, module := 0,
        return_type := .NoResult, locals := [],
        value_stack := ⟨[.I32 1], 10⟩, frame_stack := ⟨[], 10⟩,
        position := 0 }
      1 [] ⟨[], 0, some 0⟩ rfl (by decide) (by decide) (by decide)).2 (by decide)

/-- C8: for every load or store with an immediate offset, the effective
address is base + offset with u32 overflow detection; if the addition
overflows u32, or the access of sizeof(T) bytes at the address extends
past the memory's size in bytes, the instruction fails with a Memory-kind
error and no memory is read or written (an error outcome discards the
candidate state, so the store is untouched); an in-bounds load succeeds
and pushes the decoded bytes. -/
theorem load_store_oob_is_memory_trap
    (size : Nat) (decode : List Nat → RuntimeValue)
    (tryEncode : RuntimeValue → Except Error (List Nat))
    (s : Store) (offset : Nat) :
    (∀ c bv tl, c.value_stack.values = .I32 bv :: tl →
       toU32 bv + offset ≥ U32_MOD →
       run_load_gen size decode s c offset =
         .error (.Memory "invalid memory access")) ∧
    (∀ c bv tl, c.value_stack.values = .I32 bv :: tl →
       toU32 bv + offset < U32_MOD →
       toU32 bv + offset + size >
         (s.memoryAt (s.resolve_memory c.module DEFAULT_MEMORY_INDEX)).data.length →
       run_load_gen size decode s c offset =
         .error (.Memory "trying to access region out of memory bounds")) ∧
    (∀ c bv tl, c.value_stack.values = .I32 bv :: tl →
       toU32 bv + offset < U32_MOD →
       toU32 bv + offset + size ≤
         (s.memoryAt (s.resolve_memory c.module DEFAULT_MEMORY_INDEX)).data.length →
       tl.length < c.value_stack.limit →
       run_load_gen size decode s c offset = .ok
         (s,
          { c with value_stack := { c.value_stack with values := decode (((s.memoryAt (s.resolve_memory c.module DEFAULT_MEMORY_INDEX)).data.drop (toU32 bv + offset)).take size) :: tl } },
          .RunNextInstruction)) ∧
    (∀ c v bytes bv tl, c.value_stack.values = v :: .I32 bv :: tl →
       tryEncode v = .ok bytes →
       toU32 bv + offset ≥ U32_MOD →
       run_store_gen tryEncode s c offset =
         .error (.Memory "invalid memory access")) ∧
    (∀ c v bytes bv tl, c.value_stack.values = v :: .I32 bv :: tl →
       tryEncode v = .ok bytes →
       toU32 bv + offset < U32_MOD →
       toU32 bv + offset + bytes.length >
         (s.memoryAt (s.resolve_memory c.module DEFAULT_MEMORY_INDEX)).data.length →
       run_store_gen tryEncode s c offset =
         .error (.Memory "trying to update region out of memory bounds")) := by
  refine ⟨?_, ?_, ?_, ?_, ?_⟩
  · intro c bv tl hbv hov
    unfold run_load_gen
    simp only [StackWithLimit.popAsU32, StackWithLimit.popAsI32,
      StackWithLimit.pop, hbv, PW.bind_ok]
    unfold effective_address
    rw [if_pos hov]
    rfl
  · intro c bv tl hbv hnov hoob
    unfold run_load_gen
    simp only [StackWithLimit.popAsU32, StackWithLimit.popAsI32,
      StackWithLimit.pop, hbv, PW.bind_ok]
    unfold effective_address
    rw [if_neg (by omega)]
    simp only [PW.bind_ok]
    unfold MemoryInstance.get
    rw [if_pos (by omega)]
    rfl
  · intro c bv tl hbv hnov hin hroom
    unfold run_load_gen
    simp only [StackWithLimit.popAsU32, StackWithLimit.popAsI32,
      StackWithLimit.pop, hbv, PW.bind_ok]
    unfold effective_address
    rw [if_neg (by omega)]
    simp only [PW.bind_ok]
    unfold MemoryInstance.get
    rw [if_neg (by omega)]
    simp only [PW.bind_ok, StackWithLimit.push]
    rw [if_neg (by simp only [not_le]; omega)]
    rfl
  · intro c v bytes bv tl hst henc hov
    unfold run_store_gen
    simp only [StackWithLimit.pop, hst, PW.bind_ok, henc,
      StackWithLimit.popAsU32, StackWithLimit.popAsI32]
    unfold effective_address
    rw [if_pos hov]
    rfl
  · intro c v bytes bv tl hst henc hnov hoob
    unfold run_store_gen
    simp only [StackWithLimit.pop, hst, PW.bind_ok, henc,
      StackWithLimit.popAsU32, StackWithLimit.popAsI32]
    unfold effective_address
    rw [if_neg (by omega)]
    simp only [PW.bind_ok]
    unfold MemoryInstance.set
    rw [if_pos (by omega)]
    rfl

/-- Witness for C8: an i32 load at immediate offset 3 with base 2 from a
4-byte memory extends past the end and fails with a Memory error. -/
theorem load_store_oob_is_memory_trap_witness :
    run_load_gen 4 i32Decode
      ⟨[], [], [⟨[0, 0, 0, 0], 1, none⟩], [], [], [⟨[], [], [0], [], []⟩]⟩
      { is_initialized := true, function := 0, module := 0,
        return_type := .NoResult, locals := [],
        value_stack := ⟨[.I32 2], 10⟩, frame_stack := ⟨[], 10⟩,
        position := 0 } 3 =
    .error (.Memory "trying to access region out of memory bounds") :=
  (load_store_oob_is_memory_trap 4 i32Decode i32TryEncode
      ⟨[], [], [⟨[0, 0, 0, 0], 1, none⟩], [], [], [⟨[], [], [0], [], []⟩]⟩ 3).2.1
    { is_initialized := true, function := 0, module := 0,
      return_type := .NoResult, locals := [],
      value_stack := ⟨[.I32 2], 10⟩, frame_stack := ⟨[], 10⟩,
      position := 0 }
    2 [] rfl (by decide) (by decide)

/-- Helper: the reversed-parameter walk of prepare_function_args succeeds
on a stack prefix matching the reversed parameter types, consuming exactly
that prefix. -/
theorem prepare_function_args_rev_ok
    (pts : List ValueType) (vals : List RuntimeValue)
    (h : List.Forall₂
      (fun pt (v : RuntimeValue) => v.variableType = pt.toVariableType) pts vals) :
    ∀ (st : StackWithLimit RuntimeValue) (tl : List RuntimeValue),
      st.values = vals ++ tl →
      prepare_function_args_rev pts st =
        .ok (List.zipWith (fun pt v => ⟨true, pt.toVariableType, v⟩) pts vals,
             { st with values := tl }) := by
  induction h with
  | nil =>
      intro st tl hst
      simp only [List.nil_append] at hst
      simp [prepare_function_args_rev, ← hst]
  | cons h₁ h₂ ih =>
      rename_i pt v pts' vals'
      intro st tl hst
      simp only [List.cons_append] at hst
      unfold prepare_function_args_rev
      simp only [StackWithLimit.pop, hst, PW.bind_ok]
      rw [if_neg (by simp [h₁])]
      unfold Variable.new
      rw [if_neg (by simp [h₁])]
      simp only [PW.bind_ok]
      rw [ih { st with values := vals' ++ tl } tl rfl]
      rfl

/-- Helper: a stack prefix of the right length with some type mismatch
makes the reversed-parameter walk fail with a Function error. -/
theorem prepare_function_args_rev_err
    (pts : List ValueType) :
    ∀ (vals tl : List RuntimeValue) (st : StackWithLimit RuntimeValue),
      st.values = vals ++ tl → vals.length = pts.length →
      ¬ List.Forall₂
        (fun pt (v : RuntimeValue) => v.variableType = pt.toVariableType) pts vals →
      ∃ msg, prepare_function_args_rev pts st = .error (.Function msg) := by
  induction pts with
  | nil =>
      intro vals tl st hst hlen hneg
      cases vals with
      | nil => exact absurd List.Forall₂.nil hneg
      | cons v vs => simp at hlen
  | cons pt pts ih =>
      intro vals tl st hst hlen hneg
      cases vals with
      | nil => simp at hlen
      | cons v vs =>
          simp only [List.cons_append] at hst
          by_cases hv : v.variableType = pt.toVariableType
          · have hneg' : ¬ List.Forall₂
                (fun pt (v : RuntimeValue) => v.variableType = pt.toVariableType) pts vs :=
              fun hrest => hneg (List.Forall₂.cons hv hrest)
            obtain ⟨msg, hmsg⟩ :=
              ih vs tl ⟨vs ++ tl, st.limit⟩ rfl (by simpa using hlen) hneg'
            refine ⟨msg, ?_⟩
            unfold prepare_function_args_rev
            simp only [StackWithLimit.pop, hst, PW.bind_ok]
            rw [if_neg (by simp [hv])]
            unfold Variable.new
            rw [if_neg (by simp [hv])]
            simp only [PW.bind_ok]
            rw [hmsg]
            rfl
          · refine ⟨"invalid parameter type", ?_⟩
            unfold prepare_function_args_rev
            simp only [StackWithLimit.pop, hst, PW.bind_ok]
            rw [if_pos (by simp [hv])]

/-- Helper: projections of the variables built by the parameter walk. -/
theorem zipWith_param_proj
    (pts : List ValueType) (vals : List RuntimeValue)
    (h : List.Forall₂
      (fun pt (v : RuntimeValue) => v.variableType = pt.toVariableType) pts vals) :
    (List.zipWith (fun (pt : ValueType) (v : RuntimeValue) =>
        (⟨true, pt.toVariableType, v⟩ : Variable)) pts vals).map Variable.get = vals ∧
    (List.zipWith (fun (pt : ValueType) (v : RuntimeValue) =>
        (⟨true, pt.toVariableType, v⟩ : Variable)) pts vals).map Variable.variable_type =
      pts.map ValueType.toVariableType := by
  induction h with
  | nil => exact ⟨rfl, rfl⟩
  | cons h₁ h₂ ih =>
      refine ⟨?_, ?_⟩ <;> simp [Variable.get, ih.1, ih.2]

/-- Helper: zero-initialized variables always collect successfully. -/
theorem collectVars_defaults (vts : List VariableType) :
    collectVars vts =
      .ok (vts.map fun vt => ⟨true, vt, RuntimeValue.default vt⟩) := by
  induction vts with
  | nil => rfl
  | cons vt rest ih =>
      unfold collectVars
      have h : Variable.new true vt (RuntimeValue.default vt) =
          .ok ⟨true, vt, RuntimeValue.default vt⟩ := by
        cases vt <;> rfl
      rw [h]
      simp only [PW.bind_ok, ih]
      rfl

/-- C4: when the interpreter calls a function it pops exactly one value per
declared parameter from the caller's value stack and verifies each against
the declared parameter type, failing with a Function-kind error on any
mismatch; the new context's locals are the parameter values in declaration
order followed by zero-initialized declared locals. -/
theorem call_binds_params_and_zero_inits_locals :
    (∀ (ft : FunctionType) (st : StackWithLimit RuntimeValue)
       (vals tl : List RuntimeValue),
       st.values = vals ++ tl →
       List.Forall₂ (fun pt (v : RuntimeValue) =>
         v.variableType = pt.toVariableType) ft.params vals.reverse →
       ∃ args,
         prepare_function_args ft st = .ok (args, { st with values := tl }) ∧
         args.map Variable.get = vals.reverse ∧
         args.map Variable.variable_type = ft.params.map ValueType.toVariableType) ∧
    (∀ (ft : FunctionType) (st : StackWithLimit RuntimeValue)
       (vals tl : List RuntimeValue),
       st.values = vals ++ tl → vals.length = ft.params.length →
       ¬ List.Forall₂ (fun pt (v : RuntimeValue) =>
         v.variableType = pt.toVariableType) ft.params vals.reverse →
       ∃ msg, prepare_function_args ft st = .error (.Function msg)) ∧
    (∀ (c : FunctionContext) (ls : List LocalEntry),
       c.initialize ls = .ok { c with is_initialized := true, locals := c.locals ++ ((ls.flatMap fun l => List.replicate l.count l.value_type.toVariableType).map fun vt => ⟨true, vt, RuntimeValue.default vt⟩) }) := by
  refine ⟨?_, ?_, ?_⟩
  · intro ft st vals tl hst h
    have h' : List.Forall₂ (fun pt (v : RuntimeValue) =>
        v.variableType = pt.toVariableType) ft.params.reverse vals := by
      have := List.forall₂_reverse_iff.mpr h
      simpa using this
    refine ⟨(List.zipWith (fun pt v => ⟨true, pt.toVariableType, v⟩)
      ft.params.reverse vals).reverse, ?_, ?_, ?_⟩
    · unfold prepare_function_args
      rw [prepare_function_args_rev_ok ft.params.reverse vals h' st tl hst]
      rfl
    · rw [List.map_reverse, (zipWith_param_proj _ _ h').1]
    · rw [List.map_reverse, (zipWith_param_proj _ _ h').2]
      simp
  · intro ft st vals tl hst hlen hneg
    have hneg' : ¬ List.Forall₂ (fun pt (v : RuntimeValue) =>
        v.variableType = pt.toVariableType) ft.params.reverse vals := by
      intro hcon
      apply hneg
      have := List.forall₂_reverse_iff.mpr hcon
      simpa using this
    obtain ⟨msg, hmsg⟩ := prepare_function_args_rev_err ft.params.reverse vals tl st
      hst (by simpa using hlen) hneg'
    refine ⟨msg, ?_⟩
    unfold prepare_function_args
    rw [hmsg]
    rfl
  · intro c ls
    unfold FunctionContext.initialize
    rw [collectVars_defaults]
    rfl

/-- Witness for C4: binding two parameters (i32, i64) from a stack holding
I64 5 above I32 7. -/
theorem call_binds_params_and_zero_inits_locals_witness :
    ∃ args,
      prepare_function_args ⟨[.i32, .i64], some .i32⟩ ⟨[.I64 5, .I32 7], 10⟩ =
        .ok (args, ⟨[], 10⟩) ∧
      args.map Variable.get = [.I32 7, .I64 5] ∧
      args.map Variable.variable_type = [.i32, .i64] :=
  call_binds_params_and_zero_inits_locals.1
    ⟨[.i32, .i64], some .i32⟩ ⟨[.I64 5, .I32 7], 10⟩ [.I64 5, .I32 7] []
    rfl (.cons rfl (.cons rfl .nil))

/-- C7: every function context enforces the value-stack limit 16384 and the
frame-stack limit 1024 across the whole call chain: the root caller context
carries exactly those limits, a nested caller context carries the outer
limits minus the outer current depths, a nested function context is created
with stack limits equal to the caller's limit minus the caller's current
depth (measured after the arguments were popped, as the source does), and a
push on a stack at its limit fails with a Stack error that aborts the
invocation. -/
theorem stack_limits_inherited_across_call_chain :
    DEFAULT_VALUE_STACK_LIMIT = 16384 ∧ DEFAULT_FRAME_STACK_LIMIT = 1024 ∧
    (∀ args, (CallerContext.topmost args).value_stack_limit = 16384 ∧
             (CallerContext.topmost args).frame_stack_limit = 1024) ∧
    (∀ (outer : FunctionContext),
       (CallerContext.nested outer).value_stack_limit =
         outer.value_stack.limit - outer.value_stack.len ∧
       (CallerContext.nested outer).frame_stack_limit =
         outer.frame_stack.limit - outer.frame_stack.len) ∧
    (∀ (c : FunctionContext) (s : Store) (fid : Nat)
       (caller nc : FunctionContext),
       c.nested s fid = .value (.ok (caller, nc)) →
       nc.value_stack.limit = caller.value_stack.limit - caller.value_stack.len ∧
       nc.frame_stack.limit = c.frame_stack.limit - c.frame_stack.len ∧
       nc.value_stack.values = [] ∧ nc.frame_stack.values = []) ∧
    (∀ (α : Type) (st : StackWithLimit α) (a : α), st.len ≥ st.limit →
       st.push a = .error (.Stack "exceeded stack limit")) := by
  refine ⟨rfl, rfl, fun args => ⟨rfl, rfl⟩, fun outer => ⟨rfl, rfl⟩, ?_, ?_⟩
  · intro c s fid caller nc h
    unfold FunctionContext.nested at h
    cases hres : s.resolveFunc fid with
    | Host t => rw [hres] at h; exact OrPanic.noConfusion h
    | Defined module ftid body =>
        rw [hres] at h
        injection h with h
        simp only [] at h
        cases hprep : prepare_function_args (s.typeAt ftid) c.value_stack with
        | error e => rw [hprep] at h; exact Except.noConfusion h
        | ok p =>
            obtain ⟨args, vs'⟩ := p
            rw [hprep, PW.bind_ok] at h
            injection h with h
            injection h with h1 h2
            subst h1
            subst h2
            exact ⟨rfl, rfl, rfl, rfl⟩
  · intro α st a hfull
    unfold StackWithLimit.len at hfull
    unfold StackWithLimit.push
    rw [if_pos hfull]

/-- Witness for C7: a nested call of a nullary function from a context of
stack depth 1 and limit 10 yields a fresh context with value-stack limit 9,
and a push on a full one-slot stack fails with a Stack error. -/
theorem stack_limits_inherited_across_call_chain_witness :
    FunctionContext.nested
      { is_initialized := true, function := 0, module := 0,
        return_type := .NoResult, locals := [],
        value_stack := ⟨[.I32 9], 10⟩, frame_stack := ⟨[], 5⟩, position := 0 }
      ⟨[⟨[], none⟩], [.Defined 0 0 ⟨[], [], []⟩], [], [], [], []⟩ 0 =
      .value (.ok
        ({ is_initialized := true, function := 0, module := 0,
           return_type := .NoResult, locals := [],
           value_stack := ⟨[.I32 9], 10⟩, frame_stack := ⟨[], 5⟩, position := 0 },
         { is_initialized := false, function := 0, module := 0,
           return_type := .NoResult, locals := [],
           value_stack := ⟨[], 9⟩, frame_stack := ⟨[], 5⟩, position := 0 })) ∧
    (⟨[], 9⟩ : StackWithLimit RuntimeValue).limit =
      (⟨[.I32 9], 10⟩ : StackWithLimit RuntimeValue).limit -
        (⟨[.I32 9], 10⟩ : StackWithLimit RuntimeValue).len ∧
    StackWithLimit.push (⟨[.I32 0], 1⟩ : StackWithLimit RuntimeValue) (.I32 5) =
      .error (.Stack "exceeded stack limit") :=
  ⟨rfl,
   (stack_limits_inherited_across_call_chain.2.2.2.2.1
      { is_initialized := true, function := 0, module := 0,
        return_type := .NoResult, locals := [],
        value_stack := ⟨[.I32 9], 10⟩, frame_stack := ⟨[], 5⟩, position := 0 }
      ⟨[⟨[], none⟩], [.Defined 0 0 ⟨[], [], []⟩], [], [], [], []⟩ 0
      { is_initialized := true, function := 0, module := 0,
        return_type := .NoResult, locals := [],
        value_stack := ⟨[.I32 9], 10⟩, frame_stack := ⟨[], 5⟩, position := 0 }
      { is_initialized := false, function := 0, module := 0,
        return_type := .NoResult, locals := [],
        value_stack := ⟨[], 9⟩, frame_stack := ⟨[], 5⟩, position := 0 }
      rfl).1,
   stack_limits_inherited_across_call_chain.2.2.2.2.2 RuntimeValue
     ⟨[.I32 0], 1⟩ (.I32 5) (by decide)⟩

/-- C2: evaluating an instantiation-time initializer succeeds only when its
constant expression is one of I32Const, I64Const, F32Const, F64Const, or
GetGlobal of an imported immutable global; every other instruction fails
with an Initialization error, as does an empty expression.  Only the first
opcode is inspected. -/
theorem initializer_accepts_only_constant_exprs
    (module : ParsedModule) (imports : ModuleImports) :
    (get_initializer [] module imports =
      .error (.Initialization "empty instantiation-time initializer")) ∧
    (∀ (v : Int) rest,
      get_initializer (.I32Const v :: rest) module imports = .ok (.I32 v)) ∧
    (∀ (v : Int) rest,
      get_initializer (.I64Const v :: rest) module imports = .ok (.I64 v)) ∧
    (∀ (b : Nat) rest,
      get_initializer (.F32Const b :: rest) module imports = .ok (.F32 b)) ∧
    (∀ (b : Nat) rest,
      get_initializer (.F64Const b :: rest) module imports = .ok (.F64 b)) ∧
    (∀ (op : Opcode) rest, op.isConstantInit = false →
      get_initializer (op :: rest) module imports =
        .error (.Initialization
          "not-supported instruction in instantiation-time initializer")) ∧
    (∀ (i : Nat) rest (v : RuntimeValue),
      get_initializer (.GetGlobal i :: rest) module imports = .ok v →
      ∃ entries e gt g,
        i < imports.global_import_count ∧
        module.import_section = some entries ∧
        entries[i]? = some e ∧
        e.external = .Global gt ∧
        imports.lookup_global e.module e.field = some g ∧
        gt.is_mutable = false ∧ g.is_mutable = false ∧
        g.variable_type = gt.content.toVariableType ∧ v = g.value) ∧
    (∀ (i : Nat) rest entries e gt g,
        i < imports.global_import_count →
        module.import_section = some entries →
        entries[i]? = some e →
        e.external = .Global gt →
        imports.lookup_global e.module e.field = some g →
        gt.is_mutable = false → g.is_mutable = false →
        g.variable_type = gt.content.toVariableType →
        get_initializer (.GetGlobal i :: rest) module imports = .ok g.value) := by
  refine ⟨rfl, fun v rest => rfl, fun v rest => rfl, fun b rest => rfl,
    fun b rest => rfl, ?_, ?_, ?_⟩
  · intro op rest hop
    cases op <;> first | rfl | simp [Opcode.isConstantInit] at hop
  · intro i rest v h
    unfold get_initializer ModuleImports.parse_global_index at h
    simp only [List.get?_cons_zero] at h
    by_cases hi : i < imports.global_import_count
    · simp only [if_pos hi] at h
      cases his : module.import_section with
      | none => simp [his] at h
      | some entries =>
          simp only [his] at h
          cases hge : entries[i]? with
          | none => simp [hge] at h
          | some e =>
              simp only [List.get?_eq_getElem?, hge] at h
              unfold ModuleImports.global at h
              cases hlk : imports.lookup_global e.module e.field with
              | none => simp [hlk, Except.map] at h
              | some g =>
                  simp only [hlk] at h
                  cases hex : e.external with
                  | Global gt =>
                      simp only [hex] at h
                      cases hgtm : gt.is_mutable with
                      | true => simp [hgtm, Except.map] at h
                      | false =>
                          simp only [hgtm, Bool.false_eq_true, if_false] at h
                          cases hgm : g.is_mutable with
                          | true => simp [hgm, Except.map] at h
                          | false =>
                              simp only [hgm, Bool.false_eq_true, if_false] at h
                              by_cases hty :
                                  g.variable_type = gt.content.toVariableType
                              · rw [if_neg (by simp [hty])] at h
                                simp [Except.map, Variable.get] at h
                                exact ⟨entries, e, gt, g, hi, rfl, hge, hex,
                                  hlk, hgtm, hgm, hty, h.symm⟩
                              · rw [if_pos (by simp [hty])] at h
                                simp [Except.map] at h
                  | Function t => simp [hex, Except.map] at h
                  | Memory l => simp [hex, Except.map] at h
                  | Table l => simp [hex, Except.map] at h
    · simp [if_neg hi] at h
  · intro i rest entries e gt g hi his hge hex hlk hgtm hgm hty
    unfold get_initializer ModuleImports.parse_global_index
    simp only [List.get?_eq_getElem?, List.getElem?_cons_zero, if_pos hi, his,
      hge]
    unfold ModuleImports.global
    simp only [hlk, hex]
    rw [if_neg (by simp [hgtm])]
    rw [if_neg (by simp [hgm])]
    rw [if_neg (by simp [hty])]
    rfl

/-- Witness for C2: GetGlobal 0 of an imported immutable i32 global holding
I32 11 evaluates to that value. -/
theorem initializer_accepts_only_constant_exprs_witness :
    get_initializer [.GetGlobal 0]
      { type_section := none,
        import_section := some [⟨"env", "g", .Global ⟨.i32, false⟩⟩],
        function_section := none, table_section := none,
        memory_section := none, global_section := none,
        export_section := none, start_section := none,
        elements_section := none, code_section := none,
        data_section := none }
      ⟨0, 0, 0, 1, fun _ _ => some ⟨false, .i32, .I32 11⟩, fun _ _ => none, fun _ _ => none⟩ = .ok (.I32 11) :=
  (initializer_accepts_only_constant_exprs
      { type_section := none,
        import_section := some [⟨"env", "g", .Global ⟨.i32, false⟩⟩],
        function_section := none, table_section := none,
        memory_section := none, global_section := none,
        export_section := none, start_section := none,
        elements_section := none, code_section := none,
        data_section := none }
      ⟨0, 0, 0, 1, fun _ _ => some ⟨false, .i32, .I32 11⟩, fun _ _ => none, fun _ _ => none⟩).2.2.2.2.2.2.2
    0 [] [⟨"env", "g", .Global ⟨.i32, false⟩⟩] ⟨"env", "g", .Global ⟨.i32, false⟩⟩
    ⟨.i32, false⟩ ⟨false, .i32, .I32 11⟩
    (by decide) rfl rfl rfl rfl rfl rfl rfl

/-- Helper: a successful bind factors through a successful first stage. -/
theorem bind_eq_ok {α β : Type} {x : Except Error α} {f : α → Except Error β}
    {b : β} (h : (x >>= f) = .ok b) : ∃ a, x = .ok a ∧ f a = .ok b := by
  cases x with
  | error e => exact absurd h (by simp [Bind.bind, Except.bind])
  | ok a => exact ⟨a, rfl, h⟩

/-- Helper: a successful export walk implies all export names are distinct
and none was already seen. -/
theorem checkExports_ok_nodup (inst : ModuleInstanceRec) :
    ∀ (es : List ExportEntry) (names : List String),
      checkExports inst es names = .ok () →
      (es.map (·.field)).Nodup ∧
        ∀ f ∈ es.map (·.field), names.contains f = false := by
  intro es
  induction es with
  | nil => intro names _; simp
  | cons e rest ih =>
      intro names h
      unfold checkExports at h
      by_cases hc : names.contains e.field = true
      · rw [if_pos hc] at h; simp at h
      · rw [if_neg hc] at h
        obtain ⟨u, _, hrest⟩ := bind_eq_ok h
        obtain ⟨h1, h2⟩ := ih (e.field :: names) hrest
        refine ⟨?_, ?_⟩
        · simp only [List.map_cons, List.nodup_cons]
          refine ⟨fun hmem => ?_, h1⟩
          have := h2 e.field hmem
          simp at this
        · intro f hf
          simp only [List.map_cons, List.mem_cons] at hf
          rcases hf with rfl | hf
          · simpa using hc
          · have := h2 f (by simpa using hf)
            simp at this
            simpa using this.2

/-- Helper: a successful import walk implies no import declares a mutable
global. -/
theorem checkImports_ok_no_mutable_global (inst : ModuleInstanceRec) :
    ∀ (es : List ImportEntry), checkImports inst es = .ok () →
      ∀ e ∈ es, ∀ gt, e.external = .Global gt → gt.is_mutable = false := by
  intro es
  induction es with
  | nil => intro _ e he; simp at he
  | cons e rest ih =>
      intro h e' he' gt hex
      unfold checkImports at h
      obtain ⟨u, hstep, hrest⟩ := bind_eq_ok h
      rcases List.mem_cons.mp he' with rfl | hmem
      · simp only [hex] at hstep
        by_cases hm : gt.is_mutable = true
        · rw [if_pos hm] at hstep; simp at hstep
        · simpa using hm
      · exact ih hrest e' hmem gt hex

/-- Helper: a successful export walk implies every exported global resolves
to an immutable cell. -/
theorem checkExports_ok_globals_immutable (inst : ModuleInstanceRec) :
    ∀ (es : List ExportEntry) (names : List String),
      checkExports inst es names = .ok () →
      ∀ e ∈ es, ∀ idx, e.internal = .Global idx →
        ∃ g, inst.global (.IndexSpace idx) = .ok g ∧ g.is_mutable = false := by
  intro es
  induction es with
  | nil => intro names _ e he; simp at he
  | cons e rest ih =>
      intro names h e' he' idx hint
      unfold checkExports at h
      by_cases hc : names.contains e.field = true
      · rw [if_pos hc] at h; simp at h
      · rw [if_neg hc] at h
        obtain ⟨u, hstep, hrest⟩ := bind_eq_ok h
        rcases List.mem_cons.mp he' with rfl | hmem
        · simp only [hint] at hstep
          obtain ⟨g, hg, hif⟩ := bind_eq_ok hstep
          by_cases hm : g.is_mutable = true
          · rw [if_pos hm] at hif; simp at hif
          · exact ⟨g, hg, by simpa using hm⟩
        · exact ih (e.field :: names) hrest e' hmem idx hint

/-- Helper: a successful complete_initialization of a user module implies
its export and import walks succeeded. -/
theorem complete_initialization_ok_checks
    (inst inst' : ModuleInstanceRec)
    (h : inst.complete_initialization true = .ok inst') :
    (∀ es, inst.module.export_section = some es →
       checkExports inst es [] = .ok ()) ∧
    (∀ ies, inst.module.import_section = some ies →
       checkImports inst ies = .ok ()) := by
  unfold ModuleInstanceRec.complete_initialization at h
  obtain ⟨u1, h1, h⟩ := bind_eq_ok h
  obtain ⟨u2, h2, h⟩ := bind_eq_ok h
  obtain ⟨u3, h3, h⟩ := bind_eq_ok h
  constructor
  · intro es hes
    cases u2
    simp [hes] at h2
    exact h2
  · intro ies hies
    cases u3
    simp [hies] at h3
    exact h3

/-- Helper: a produced instance implies both walks succeeded on it. -/
theorem new_ok_checks (imports : ModuleImports) (module : ParsedModule)
    (inst' : ModuleInstanceRec)
    (h : ModuleInstance.new imports module = .ok inst') :
    ∃ inst : ModuleInstanceRec, inst.module = module ∧ inst.imports = imports ∧
      (∀ es, module.export_section = some es →
         checkExports inst es [] = .ok ()) ∧
      (∀ ies, module.import_section = some ies →
         checkImports inst ies = .ok ()) := by
  unfold ModuleInstance.new ModuleInstance.new_with_validation_flag at h
  obtain ⟨mem, _, h⟩ := bind_eq_ok h
  obtain ⟨tabs, _, h⟩ := bind_eq_ok h
  obtain ⟨gls, _, h⟩ := bind_eq_ok h
  obtain ⟨hex, him⟩ := complete_initialization_ok_checks _ _ h
  exact ⟨_, rfl, rfl, hex, him⟩

/-- C9: instantiation of a user module fails with a Validation-kind error
when two exports share the same name, when an exported global is mutable,
or when an import declares a mutable global; a produced ModuleInstance
therefore has distinct export names, only immutable exported globals and
no mutable global import — on any such failure no instance is produced. -/
theorem instantiation_rejects_dup_exports_and_mutable_globals :
    (∀ (inst : ModuleInstanceRec) (e : ExportEntry) rest names,
       names.contains e.field = true →
       checkExports inst (e :: rest) names =
         .error (.Validation "duplicate export with same name")) ∧
    (∀ (inst : ModuleInstanceRec) (e : ExportEntry) rest names idx g,
       names.contains e.field = false →
       e.internal = .Global idx →
       inst.global (.IndexSpace idx) = .ok g → g.is_mutable = true →
       checkExports inst (e :: rest) names =
         .error (.Validation "trying to export mutable global")) ∧
    (∀ (inst : ModuleInstanceRec) (e : ImportEntry) rest gt,
       e.external = .Global gt → gt.is_mutable = true →
       checkImports inst (e :: rest) =
         .error (.Validation "trying to import mutable global")) ∧
    (∀ (imports : ModuleImports) (module : ParsedModule)
       (inst' : ModuleInstanceRec),
       ModuleInstance.new imports module = .ok inst' →
       ∃ inst : ModuleInstanceRec, inst.module = module ∧
         inst.imports = imports ∧
         (∀ es, module.export_section = some es →
            ((es.map (·.field)).Nodup ∧
             ∀ e ∈ es, ∀ idx, e.internal = .Global idx →
               ∃ g, inst.global (.IndexSpace idx) = .ok g ∧
                 g.is_mutable = false)) ∧
         (∀ ies, module.import_section = some ies →
            ∀ e ∈ ies, ∀ gt, e.external = .Global gt →
              gt.is_mutable = false)) := by
  refine ⟨?_, ?_, ?_, ?_⟩
  · intro inst e rest names hc
    unfold checkExports
    rw [if_pos hc]
  · intro inst e rest names idx g hc hint hg hm
    unfold checkExports
    rw [if_neg (by rw [hc]; simp)]
    simp only [hint, hg, PW.bind_ok]
    rw [if_pos hm]
    rfl
  · intro inst e rest gt hex hm
    unfold checkImports
    simp only [hex]
    rw [if_pos hm]
    rfl
  · intro imports module inst' h
    obtain ⟨inst, hmod, himp, hexp, himpok⟩ := new_ok_checks imports module inst' h
    refine ⟨inst, hmod, himp, ?_, ?_⟩
    · intro es hes
      have hok := hexp es hes
      exact ⟨(checkExports_ok_nodup inst es [] hok).1,
        checkExports_ok_globals_immutable inst es [] hok⟩
    · intro ies hies
      exact checkImports_ok_no_mutable_global inst ies (himpok ies hies)

/-- Witness for C9: the duplicate-name rejection at a concrete walk state,
and an end-to-end instantiation of a module with two exports named a
failing with the same Validation error. -/
theorem instantiation_rejects_dup_exports_and_mutable_globals_witness :
    checkExports
      ⟨{ type_section := none, import_section := none,
         function_section := some [0], table_section := none,
         memory_section := none, global_section := none,
         export_section := some [⟨"a", .Function 0⟩, ⟨"a", .Function 0⟩],
         start_section := none, elements_section := none,
         code_section := none, data_section := none },
       ⟨0, 0, 0, 0, fun _ _ => none, fun _ _ => none, fun _ _ => none⟩,
       [], [], []⟩
      [⟨"a", .Function 0⟩] ["a"] =
      .error (.Validation "duplicate export with same name") ∧
    ModuleInstance.new
      ⟨0, 0, 0, 0, fun _ _ => none, fun _ _ => none, fun _ _ => none⟩
      { type_section := none, import_section := none,
        function_section := some [0], table_section := none,
        memory_section := none, global_section := none,
        export_section := some [⟨"a", .Function 0⟩, ⟨"a", .Function 0⟩],
        start_section := none, elements_section := none,
        code_section := none, data_section := none } =
      .error (.Validation "duplicate export with same name") :=
  ⟨instantiation_rejects_dup_exports_and_mutable_globals.1
      ⟨{ type_section := none, import_section := none,
         function_section := some [0], table_section := none,
         memory_section := none, global_section := none,
         export_section := some [⟨"a", .Function 0⟩, ⟨"a", .Function 0⟩],
         start_section := none, elements_section := none,
         code_section := none, data_section := none },
       ⟨0, 0, 0, 0, fun _ _ => none, fun _ _ => none, fun _ _ => none⟩,
       [], [], []⟩
      ⟨"a", .Function 0⟩ [] ["a"] (by decide),
   by rfl⟩

/-- C6: executing CallIndirect pops an I32 table index and loads the table
slot; when the resolved function's signature differs from the function
type required by the instruction's type index the invocation aborts with a
Function-kind error, and when they agree the call proceeds to the slot's
function. -/
theorem call_indirect_signature_mismatch_is_function_error
    (s : Store) (c : FunctionContext) (iv : Int) (tl : List RuntimeValue)
    (fid : Nat) (type_idx : Nat)
    (hst : c.value_stack.values = .I32 iv :: tl)
    (hslot : (s.tableAt (s.resolve_table c.module DEFAULT_TABLE_INDEX)).get
      (toU32 iv) = .ok fid) :
    (s.resolve_type c.module type_idx ≠ s.typeAt (s.resolveFunc fid).func_type →
       run_call_indirect s c type_idx =
         .error (.Function "expected function with different signature")) ∧
    (s.resolve_type c.module type_idx = s.typeAt (s.resolveFunc fid).func_type →
       run_call_indirect s c type_idx =
         .ok (s, { c with value_stack := { c.value_stack with values := tl } },
              .ExecuteCall fid)) := by
  constructor
  · intro hne
    unfold run_call_indirect
    simp only [StackWithLimit.popAsU32, StackWithLimit.popAsI32,
      StackWithLimit.pop, hst, PW.bind_ok, hslot]
    rw [if_pos hne]
  · intro heq
    unfold run_call_indirect
    simp only [StackWithLimit.popAsU32, StackWithLimit.popAsI32,
      StackWithLimit.pop, hst, PW.bind_ok, hslot]
    rw [if_neg (by simp [heq])]

/-- Witness for C6: a table slot holding a function of type i32 to i32
called through call_indirect requesting type i64 to i64 fails with a
Function error. -/
theorem call_indirect_signature_mismatch_is_function_error_witness :
    run_call_indirect
      ⟨[⟨[.i32], some .i32⟩, ⟨[.i64], some .i64⟩],
       [.Defined 0 0 ⟨[], [], []⟩], [], [⟨[some 0]⟩], [],
       [⟨[0, 1], [0], [], [0], []⟩]⟩
      { is_initialized := true, function := 0, module := 0,
        return_type := .NoResult, locals := [],
        value_stack := ⟨[.I32 0], 10⟩, frame_stack := ⟨[], 10⟩,
        position := 0 } 1 =
    .error (.Function "expected function with different signature") :=
  (call_indirect_signature_mismatch_is_function_error
      ⟨[⟨[.i32], some .i32⟩, ⟨[.i64], some .i64⟩],
       [.Defined 0 0 ⟨[], [], []⟩], [], [⟨[some 0]⟩], [],
       [⟨[0, 1], [0], [], [0], []⟩]⟩
      { is_initialized := true, function := 0, module := 0,
        return_type := .NoResult, locals := [],
        value_stack := ⟨[.I32 0], 10⟩, frame_stack := ⟨[], 10⟩,
        position := 0 }
      0 [] 0 1 rfl rfl).1 (by decide)

/-- Helper: componentwise inversion of a successful instruction step. -/
theorem step_ok_inv {s1 s2 : Store} {c1 c2 : FunctionContext}
    {o1 o2 : InstructionOutcome}
    (h : (Except.ok (s1, c1, o1) : StepResult) = .ok (s2, c2, o2)) :
    s1 = s2 ∧ c1 = c2 ∧ o1 = o2 := by
  injection h with h
  injection h with h1 h
  injection h with h2 h3
  exact ⟨h1, h2, h3⟩

/-- Helper: push_frame only changes the frame stack. -/
theorem push_frame_inv (c : FunctionContext) (l : Labels)
    (ft : BlockFrameType) (bt : BlockType) (c' : FunctionContext)
    (h : c.push_frame l ft bt = .ok c') :
    c'.function = c.function ∧ c'.value_stack = c.value_stack ∧
      c'.is_initialized = c.is_initialized := by
  unfold FunctionContext.push_frame at h
  obtain ⟨fs, _, h⟩ := bind_eq_ok h
  injection h with h
  subst h
  exact ⟨rfl, rfl, rfl⟩

/-- Helper: pop_frame does not change the context's function. -/
theorem pop_frame_fn (c : FunctionContext) (b : Bool) (c' : FunctionContext)
    (h : c.pop_frame b = .ok c') : c'.function = c.function := by
  unfold FunctionContext.pop_frame at h
  obtain ⟨⟨frame, fs⟩, _, h⟩ := bind_eq_ok h
  simp only [] at h
  by_cases hlen : frame.value_stack_len > c.value_stack.len
  · rw [if_pos hlen] at h
    simp at h
  · rw [if_neg hlen] at h
    cases hbt : frame.block_type with
    | NoResult =>
        simp only [hbt, PW.pure_bind_ok] at h
        injection h with h
        subst h
        rfl
    | Value t =>
        simp only [hbt] at h
        by_cases hcond : frame.frame_type ≠ BlockFrameType.Loop ∨ b = false
        · rw [if_pos hcond] at h
          obtain ⟨⟨v, vs⟩, _, h⟩ := bind_eq_ok h
          simp only [PW.pure_bind_ok] at h
          obtain ⟨vs3, _, h⟩ := bind_eq_ok h
          injection h with h
          subst h
          rfl
        · rw [if_neg hcond] at h
          simp only [PW.pure_bind_ok] at h
          injection h with h
          subst h
          rfl

/-- Helper: discarding frames does not change the context's function. -/
theorem discardFrames_fn :
    ∀ (n : Nat) (c c' : FunctionContext),
      discardFrames n c = .ok c' → c'.function = c.function := by
  intro n
  induction n with
  | zero =>
      intro c c' h
      unfold discardFrames at h
      injection h with h
      subst h
      rfl
  | succ k ih =>
      intro c c' h
      unfold discardFrames at h
      obtain ⟨c1, hd, h⟩ := bind_eq_ok h
      unfold FunctionContext.discard_frame at hd
      obtain ⟨⟨f, fs⟩, _, hd⟩ := bind_eq_ok hd
      injection hd with hd
      subst hd
      have hfn := ih _ _ h
      exact hfn

/-- Helper: branch handling does not change the context's function. -/
theorem runBranch_fn (n : Nat) (c c' : FunctionContext) (b : Bool)
    (h : runBranch n c = .ok (c', b)) : c'.function = c.function := by
  unfold runBranch at h
  obtain ⟨c1, h1, h⟩ := bind_eq_ok h
  obtain ⟨c2, h2, h⟩ := bind_eq_ok h
  injection h with h
  injection h with ha hb
  subst ha
  rw [pop_frame_fn _ _ _ h2, discardFrames_fn _ _ _ h1]

/-- Helper: set_local only changes the locals. -/
theorem set_local_fn (c : FunctionContext) (i : Nat) (v : RuntimeValue)
    (c' : FunctionContext) (h : c.set_local i v = .ok c') :
    c'.function = c.function := by
  unfold FunctionContext.set_local at h
  cases hl : c.locals.get? i with
  | none => rw [hl] at h; simp at h
  | some l =>
      rw [hl] at h
      obtain ⟨l', _, h⟩ := bind_eq_ok h
      injection h with h
      subst h
      rfl

/-- Helper: write_global only changes the globals. -/
theorem write_global_funcs (s : Store) (g : Nat) (v : RuntimeValue)
    (s' : Store) (h : s.write_global g v = .ok s') : s'.funcs = s.funcs := by
  unfold Store.write_global at h
  obtain ⟨g', _, h⟩ := bind_eq_ok h
  injection h with h
  subst h
  rfl

/-- Helper: a successful nested-context creation implies the callee is a
defined (body-carrying) function, the caller keeps its function, and the
new context runs exactly the callee. -/
theorem nested_ok_inv (c : FunctionContext) (s : Store) (f : Nat)
    (caller nc : FunctionContext)
    (h : c.nested s f = .value (.ok (caller, nc))) :
    caller.function = c.function ∧ nc.function = f ∧
      (s.resolveFunc f).body ≠ none := by
  unfold FunctionContext.nested at h
  cases hres : s.resolveFunc f with
  | Host t => rw [hres] at h; exact OrPanic.noConfusion h
  | Defined module ftid body =>
      rw [hres] at h
      injection h with h
      simp only [] at h
      obtain ⟨⟨args, vs'⟩, _, h⟩ := bind_eq_ok h
      injection h with h
      injection h with h1 h2
      subst h1
      subst h2
      exact ⟨rfl, rfl, by simp [FuncInstance.body]⟩

/-- Helper: retValue keeps the store and produces a Ret result. -/
theorem retValue_inv (s : Store) (c : FunctionContext) (s' : Store)
    (r : RunResultM) (h : retValue s c = .ok (some (s', r))) :
    s' = s ∧ ∃ v, r = .Ret v := by
  unfold retValue at h
  cases hrt : c.return_type with
  | Value t =>
      simp only [hrt] at h
      obtain ⟨⟨v, vs⟩, _, h⟩ := bind_eq_ok h
      simp only [] at h
      injection h with h
      injection h with h
      injection h with h1 h2
      subst h1
      exact ⟨rfl, some v, h2.symm⟩
  | NoResult =>
      simp only [hrt] at h
      injection h with h
      injection h with h
      injection h with h1 h2
      subst h1
      exact ⟨rfl, none, h2.symm⟩

/-- Helper: resolveFunc depends only on the store's function arena. -/
theorem resolveFunc_congr (s s' : Store) (hf : s'.funcs = s.funcs) (f : Nat) :
    s'.resolveFunc f = s.resolveFunc f := by
  unfold Store.resolveFunc
  rw [hf]

/-- Helper: run_nop preserves the function arena and the running function. -/
theorem run_nop_inv (s : Store) (c : FunctionContext) (s' : Store)
    (c' : FunctionContext) (o : InstructionOutcome)
    (h : run_nop s c = .ok (s', c', o)) :
    s'.funcs = s.funcs ∧ c'.function = c.function := by
  unfold run_nop at h
  obtain ⟨h1, h2, -⟩ := step_ok_inv h
  exact ⟨by rw [← h1], by rw [← h2]⟩

/-- Helper: run_block preserves the function arena and the running function. -/
theorem run_block_inv (s : Store) (c : FunctionContext) (labels : Labels)
    (bt : BlockType) (s' : Store) (c' : FunctionContext) (o : InstructionOutcome)
    (h : run_block s c labels bt = .ok (s', c', o)) :
    s'.funcs = s.funcs ∧ c'.function = c.function := by
  unfold run_block at h
  obtain ⟨c1, hpf, h⟩ := bind_eq_ok h
  obtain ⟨h1, h2, -⟩ := step_ok_inv h
  exact ⟨by rw [← h1], by rw [← h2]; exact (push_frame_inv _ _ _ _ _ hpf).1⟩

/-- Helper: run_loop preserves the function arena and the running function. -/
theorem run_loop_inv (s : Store) (c : FunctionContext) (labels : Labels)
    (bt : BlockType) (s' : Store) (c' : FunctionContext) (o : InstructionOutcome)
    (h : run_loop s c labels bt = .ok (s', c', o)) :
    s'.funcs = s.funcs ∧ c'.function = c.function := by
  unfold run_loop at h
  obtain ⟨c1, hpf, h⟩ := bind_eq_ok h
  obtain ⟨h1, h2, -⟩ := step_ok_inv h
  exact ⟨by rw [← h1], by rw [← h2]; exact (push_frame_inv _ _ _ _ _ hpf).1⟩

/-- Helper: run_if preserves the function arena and the running function. -/
theorem run_if_inv (s : Store) (c : FunctionContext) (labels : Labels)
    (bt : BlockType) (s' : Store) (c' : FunctionContext) (o : InstructionOutcome)
    (h : run_if s c labels bt = .ok (s', c', o)) :
    s'.funcs = s.funcs ∧ c'.function = c.function := by
  unfold run_if at h
  obtain ⟨⟨branch, vs⟩, -, h⟩ := bind_eq_ok h
  simp only [] at h
  cases branch with
  | true =>
      rw [if_pos rfl] at h
      obtain ⟨c1, hpf, h⟩ := bind_eq_ok h
      obtain ⟨h1, h2, -⟩ := step_ok_inv h
      exact ⟨by rw [← h1], by rw [← h2]; exact (push_frame_inv _ _ _ _ _ hpf).1⟩
  | false =>
      rw [if_neg Bool.false_ne_true] at h
      cases hf : labels.find ((labels.find c.position).getD 0) with
      | none =>
          rw [hf] at h
          obtain ⟨h1, h2, -⟩ := step_ok_inv h
          exact ⟨by rw [← h1], by rw [← h2]⟩
      | some p =>
          rw [hf] at h
          obtain ⟨c1, hpf, h⟩ := bind_eq_ok h
          obtain ⟨h1, h2, -⟩ := step_ok_inv h
          exact ⟨by rw [← h1], by rw [← h2]; exact (push_frame_inv _ _ _ _ _ hpf).1⟩

/-- Helper: run_else preserves the function arena and the running function. -/
theorem run_else_inv (s : Store) (c : FunctionContext) (labels : Labels)
    (s' : Store) (c' : FunctionContext) (o : InstructionOutcome)
    (h : run_else s c labels = .ok (s', c', o)) :
    s'.funcs = s.funcs ∧ c'.function = c.function := by
  unfold run_else at h
  simp only [] at h
  obtain ⟨c1, hpf, h⟩ := bind_eq_ok h
  obtain ⟨h1, h2, -⟩ := step_ok_inv h
  have hfn := pop_frame_fn _ _ _ hpf
  exact ⟨by rw [← h1], by rw [← h2]; exact hfn⟩

/-- Helper: run_end preserves the function arena and the running function. -/
theorem run_end_inv (s : Store) (c : FunctionContext)
    (s' : Store) (c' : FunctionContext) (o : InstructionOutcome)
    (h : run_end s c = .ok (s', c', o)) :
    s'.funcs = s.funcs ∧ c'.function = c.function := by
  unfold run_end at h
  obtain ⟨c1, hpf, h⟩ := bind_eq_ok h
  obtain ⟨h1, h2, -⟩ := step_ok_inv h
  exact ⟨by rw [← h1], by rw [← h2]; exact pop_frame_fn _ _ _ hpf⟩

/-- Helper: run_br preserves the function arena and the running function. -/
theorem run_br_inv (s : Store) (c : FunctionContext) (idx : Nat)
    (s' : Store) (c' : FunctionContext) (o : InstructionOutcome)
    (h : run_br s c idx = .ok (s', c', o)) :
    s'.funcs = s.funcs ∧ c'.function = c.function := by
  unfold run_br at h
  obtain ⟨h1, h2, -⟩ := step_ok_inv h
  exact ⟨by rw [← h1], by rw [← h2]⟩

/-- Helper: run_br_if preserves the function arena and the running function. -/
theorem run_br_if_inv (s : Store) (c : FunctionContext) (idx : Nat)
    (s' : Store) (c' : FunctionContext) (o : InstructionOutcome)
    (h : run_br_if s c idx = .ok (s', c', o)) :
    s'.funcs = s.funcs ∧ c'.function = c.function := by
  unfold run_br_if at h
  obtain ⟨⟨cond, vs⟩, -, h⟩ := bind_eq_ok h
  simp only [] at h
  cases cond with
  | true =>
      rw [if_pos rfl] at h
      obtain ⟨h1, h2, -⟩ := step_ok_inv h
      exact ⟨by rw [← h1], by rw [← h2]⟩
  | false =>
      rw [if_neg Bool.false_ne_true] at h
      obtain ⟨h1, h2, -⟩ := step_ok_inv h
      exact ⟨by rw [← h1], by rw [← h2]⟩

/-- Helper: run_br_table preserves the function arena and the running
function. -/
theorem run_br_table_inv (s : Store) (c : FunctionContext) (t : List Nat)
    (d : Nat) (s' : Store) (c' : FunctionContext) (o : InstructionOutcome)
    (h : run_br_table s c t d = .ok (s', c', o)) :
    s'.funcs = s.funcs ∧ c'.function = c.function := by
  unfold run_br_table at h
  obtain ⟨⟨i, vs⟩, -, h⟩ := bind_eq_ok h
  obtain ⟨h1, h2, -⟩ := step_ok_inv h
  exact ⟨by rw [← h1], by rw [← h2]⟩

/-- Helper: run_return preserves the function arena and the running
function. -/
theorem run_return_inv (s : Store) (c : FunctionContext)
    (s' : Store) (c' : FunctionContext) (o : InstructionOutcome)
    (h : run_return s c = .ok (s', c', o)) :
    s'.funcs = s.funcs ∧ c'.function = c.function := by
  unfold run_return at h
  obtain ⟨h1, h2, -⟩ := step_ok_inv h
  exact ⟨by rw [← h1], by rw [← h2]⟩

/-- Helper: run_call preserves the function arena and the running function. -/
theorem run_call_inv (s : Store) (c : FunctionContext) (idx : Nat)
    (s' : Store) (c' : FunctionContext) (o : InstructionOutcome)
    (h : run_call s c idx = .ok (s', c', o)) :
    s'.funcs = s.funcs ∧ c'.function = c.function := by
  unfold run_call at h
  obtain ⟨h1, h2, -⟩ := step_ok_inv h
  exact ⟨by rw [← h1], by rw [← h2]⟩

/-- Helper: run_call_indirect preserves the function arena and the running
function. -/
theorem run_call_indirect_inv (s : Store) (c : FunctionContext) (ti : Nat)
    (s' : Store) (c' : FunctionContext) (o : InstructionOutcome)
    (h : run_call_indirect s c ti = .ok (s', c', o)) :
    s'.funcs = s.funcs ∧ c'.function = c.function := by
  unfold run_call_indirect at h
  obtain ⟨⟨i, vs⟩, -, h⟩ := bind_eq_ok h
  simp only [] at h
  obtain ⟨fref, -, h⟩ := bind_eq_ok h
  by_cases hne : s.resolve_type c.module ti ≠ s.typeAt (s.resolveFunc fref).func_type
  · rw [if_pos hne] at h
    exact Except.noConfusion h
  · rw [if_neg hne] at h
    obtain ⟨h1, h2, -⟩ := step_ok_inv h
    exact ⟨by rw [← h1], by rw [← h2]⟩

/-- Helper: run_drop preserves the function arena and the running function. -/
theorem run_drop_inv (s : Store) (c : FunctionContext)
    (s' : Store) (c' : FunctionContext) (o : InstructionOutcome)
    (h : run_drop s c = .ok (s', c', o)) :
    s'.funcs = s.funcs ∧ c'.function = c.function := by
  unfold run_drop at h
  obtain ⟨⟨v, vs⟩, -, h⟩ := bind_eq_ok h
  obtain ⟨h1, h2, -⟩ := step_ok_inv h
  exact ⟨by rw [← h1], by rw [← h2]⟩

/-- Helper: run_get_local preserves the function arena and the running
function. -/
theorem run_get_local_inv (s : Store) (c : FunctionContext) (i : Nat)
    (s' : Store) (c' : FunctionContext) (o : InstructionOutcome)
    (h : run_get_local s c i = .ok (s', c', o)) :
    s'.funcs = s.funcs ∧ c'.function = c.function := by
  unfold run_get_local at h
  obtain ⟨v, -, h⟩ := bind_eq_ok h
  obtain ⟨vs, -, h⟩ := bind_eq_ok h
  obtain ⟨h1, h2, -⟩ := step_ok_inv h
  exact ⟨by rw [← h1], by rw [← h2]⟩

/-- Helper: run_set_local preserves the function arena and the running
function. -/
theorem run_set_local_inv (s : Store) (c : FunctionContext) (i : Nat)
    (s' : Store) (c' : FunctionContext) (o : InstructionOutcome)
    (h : run_set_local s c i = .ok (s', c', o)) :
    s'.funcs = s.funcs ∧ c'.function = c.function := by
  unfold run_set_local at h
  obtain ⟨⟨arg, vs⟩, -, h⟩ := bind_eq_ok h
  simp only [] at h
  obtain ⟨c1, hsl, h⟩ := bind_eq_ok h
  obtain ⟨h1, h2, -⟩ := step_ok_inv h
  have hfn := set_local_fn _ _ _ _ hsl
  exact ⟨by rw [← h1], by rw [← h2]; exact hfn⟩

/-- Helper: run_tee_local preserves the function arena and the running
function. -/
theorem run_tee_local_inv (s : Store) (c : FunctionContext) (i : Nat)
    (s' : Store) (c' : FunctionContext) (o : InstructionOutcome)
    (h : run_tee_local s c i = .ok (s', c', o)) :
    s'.funcs = s.funcs ∧ c'.function = c.function := by
  unfold run_tee_local at h
  obtain ⟨arg, -, h⟩ := bind_eq_ok h
  obtain ⟨c1, hsl, h⟩ := bind_eq_ok h
  obtain ⟨h1, h2, -⟩ := step_ok_inv h
  have hfn := set_local_fn _ _ _ _ hsl
  exact ⟨by rw [← h1], by rw [← h2]; exact hfn⟩

/-- Helper: run_get_global preserves the function arena and the running
function. -/
theorem run_get_global_inv (s : Store) (c : FunctionContext) (i : Nat)
    (s' : Store) (c' : FunctionContext) (o : InstructionOutcome)
    (h : run_get_global s c i = .ok (s', c', o)) :
    s'.funcs = s.funcs ∧ c'.function = c.function := by
  unfold run_get_global at h
  obtain ⟨vs, -, h⟩ := bind_eq_ok h
  obtain ⟨h1, h2, -⟩ := step_ok_inv h
  exact ⟨by rw [← h1], by rw [← h2]⟩

/-- Helper: run_set_global preserves the function arena and the running
function. -/
theorem run_set_global_inv (s : Store) (c : FunctionContext) (i : Nat)
    (s' : Store) (c' : FunctionContext) (o : InstructionOutcome)
    (h : run_set_global s c i = .ok (s', c', o)) :
    s'.funcs = s.funcs ∧ c'.function = c.function := by
  unfold run_set_global at h
  obtain ⟨⟨v, vs⟩, -, h⟩ := bind_eq_ok h
  simp only [] at h
  obtain ⟨s1, hwg, h⟩ := bind_eq_ok h
  obtain ⟨h1, h2, -⟩ := step_ok_inv h
  exact ⟨by rw [← h1]; exact write_global_funcs _ _ _ _ hwg, by rw [← h2]⟩

/-- Helper: run_const preserves the function arena and the running function. -/
theorem run_const_inv (s : Store) (c : FunctionContext) (v : RuntimeValue)
    (s' : Store) (c' : FunctionContext) (o : InstructionOutcome)
    (h : run_const s c v = .ok (s', c', o)) :
    s'.funcs = s.funcs ∧ c'.function = c.function := by
  unfold run_const at h
  obtain ⟨vs, -, h⟩ := bind_eq_ok h
  obtain ⟨h1, h2, -⟩ := step_ok_inv h
  exact ⟨by rw [← h1], by rw [← h2]⟩

/-- Helper: run_unop_i32 preserves the function arena and the running
function. -/
theorem run_unop_i32_inv (f : Int → Int) (s : Store) (c : FunctionContext)
    (s' : Store) (c' : FunctionContext) (o : InstructionOutcome)
    (h : run_unop_i32 f s c = .ok (s', c', o)) :
    s'.funcs = s.funcs ∧ c'.function = c.function := by
  unfold run_unop_i32 at h
  obtain ⟨⟨v, vs⟩, -, h⟩ := bind_eq_ok h
  simp only [] at h
  obtain ⟨vs1, -, h⟩ := bind_eq_ok h
  obtain ⟨h1, h2, -⟩ := step_ok_inv h
  exact ⟨by rw [← h1], by rw [← h2]⟩

/-- Helper: run_binop_i32 preserves the function arena and the running
function. -/
theorem run_binop_i32_inv (f : Int → Int → Int) (s : Store)
    (c : FunctionContext) (s' : Store) (c' : FunctionContext)
    (o : InstructionOutcome)
    (h : run_binop_i32 f s c = .ok (s', c', o)) :
    s'.funcs = s.funcs ∧ c'.function = c.function := by
  unfold run_binop_i32 at h
  obtain ⟨⟨⟨a, b⟩, vs⟩, -, h⟩ := bind_eq_ok h
  simp only [] at h
  obtain ⟨vs1, -, h⟩ := bind_eq_ok h
  obtain ⟨h1, h2, -⟩ := step_ok_inv h
  exact ⟨by rw [← h1], by rw [← h2]⟩

/-- Helper: run_load_gen preserves the function arena and the running
function. -/
theorem run_load_gen_inv (size : Nat) (dec : List Nat → RuntimeValue)
    (s : Store) (c : FunctionContext) (off : Nat)
    (s' : Store) (c' : FunctionContext) (o : InstructionOutcome)
    (h : run_load_gen size dec s c off = .ok (s', c', o)) :
    s'.funcs = s.funcs ∧ c'.function = c.function := by
  unfold run_load_gen at h
  obtain ⟨⟨base, vs⟩, -, h⟩ := bind_eq_ok h
  simp only [] at h
  obtain ⟨addr, -, h⟩ := bind_eq_ok h
  obtain ⟨b, -, h⟩ := bind_eq_ok h
  obtain ⟨vs1, -, h⟩ := bind_eq_ok h
  obtain ⟨h1, h2, -⟩ := step_ok_inv h
  exact ⟨by rw [← h1], by rw [← h2]⟩

/-- Helper: run_store_gen preserves the function arena and the running
function. -/
theorem run_store_gen_inv (enc : RuntimeValue → Except Error (List Nat))
    (s : Store) (c : FunctionContext) (off : Nat)
    (s' : Store) (c' : FunctionContext) (o : InstructionOutcome)
    (h : run_store_gen enc s c off = .ok (s', c', o)) :
    s'.funcs = s.funcs ∧ c'.function = c.function := by
  unfold run_store_gen at h
  obtain ⟨⟨v, vs⟩, -, h⟩ := bind_eq_ok h
  simp only [] at h
  obtain ⟨bytes, -, h⟩ := bind_eq_ok h
  obtain ⟨⟨base, vs1⟩, -, h⟩ := bind_eq_ok h
  simp only [] at h
  obtain ⟨addr, -, h⟩ := bind_eq_ok h
  obtain ⟨m1, -, h⟩ := bind_eq_ok h
  obtain ⟨h1, h2, -⟩ := step_ok_inv h
  exact ⟨by rw [← h1], by rw [← h2]⟩

/-- Helper: run_current_memory preserves the function arena and the running
function. -/
theorem run_current_memory_inv (s : Store) (c : FunctionContext)
    (s' : Store) (c' : FunctionContext) (o : InstructionOutcome)
    (h : run_current_memory s c = .ok (s', c', o)) :
    s'.funcs = s.funcs ∧ c'.function = c.function := by
  unfold run_current_memory at h
  simp only [] at h
  obtain ⟨vs, -, h⟩ := bind_eq_ok h
  obtain ⟨h1, h2, -⟩ := step_ok_inv h
  exact ⟨by rw [← h1], by rw [← h2]⟩

/-- Helper: run_grow_memory preserves the function arena and the running
function. -/
theorem run_grow_memory_inv (s : Store) (c : FunctionContext)
    (s' : Store) (c' : FunctionContext) (o : InstructionOutcome)
    (h : run_grow_memory s c = .ok (s', c', o)) :
    s'.funcs = s.funcs ∧ c'.function = c.function := by
  unfold run_grow_memory at h
  obtain ⟨⟨pages, vs⟩, -, h⟩ := bind_eq_ok h
  simp only [] at h
  obtain ⟨⟨m1, old⟩, -, h⟩ := bind_eq_ok h
  simp only [] at h
  obtain ⟨vs1, -, h⟩ := bind_eq_ok h
  obtain ⟨h1, h2, -⟩ := step_ok_inv h
  exact ⟨by rw [← h1], by rw [← h2]⟩

/-- Helper: every instruction step preserves the store's function arena and
the context's running function. -/
theorem run_instruction_inv (s : Store) (c : FunctionContext) (labels : Labels)
    (op : Opcode) (s' : Store) (c' : FunctionContext) (o : InstructionOutcome)
    (h : run_instruction s c labels op = .ok (s', c', o)) :
    s'.funcs = s.funcs ∧ c'.function = c.function := by
  cases op with
  | Unreachable => exact Except.noConfusion h
  | Nop => exact run_nop_inv s c s' c' o h
  | Block bt => exact run_block_inv s c labels bt s' c' o h
  | Loop bt => exact run_loop_inv s c labels bt s' c' o h
  | If bt => exact run_if_inv s c labels bt s' c' o h
  | Else => exact run_else_inv s c labels s' c' o h
  | End => exact run_end_inv s c s' c' o h
  | Br idx => exact run_br_inv s c idx s' c' o h
  | BrIf idx => exact run_br_if_inv s c idx s' c' o h
  | BrTable t d => exact run_br_table_inv s c t d s' c' o h
  | Return => exact run_return_inv s c s' c' o h
  | Call idx => exact run_call_inv s c idx s' c' o h
  | CallIndirect ti r => exact run_call_indirect_inv s c ti s' c' o h
  | Drop => exact run_drop_inv s c s' c' o h
  | GetLocal i => exact run_get_local_inv s c i s' c' o h
  | SetLocal i => exact run_set_local_inv s c i s' c' o h
  | TeeLocal i => exact run_tee_local_inv s c i s' c' o h
  | GetGlobal i => exact run_get_global_inv s c i s' c' o h
  | SetGlobal i => exact run_set_global_inv s c i s' c' o h
  | I32Load a off => exact run_load_gen_inv 4 i32Decode s c off s' c' o h
  | I32Store a off => exact run_store_gen_inv i32TryEncode s c off s' c' o h
  | CurrentMemory r => exact run_current_memory_inv s c s' c' o h
  | GrowMemory r => exact run_grow_memory_inv s c s' c' o h
  | I32Const v => exact run_const_inv s c (.I32 v) s' c' o h
  | I64Const v => exact run_const_inv s c (.I64 v) s' c' o h
  | F32Const v => exact run_const_inv s c (.F32 v) s' c' o h
  | F64Const v => exact run_const_inv s c (.F64 v) s' c' o h
  | I32Eqz => exact run_unop_i32_inv (fun v => if v = 0 then 1 else 0) s c s' c' o h
  | I32Add => exact run_binop_i32_inv i32_add s c s' c' o h
  | I32Sub => exact run_binop_i32_inv i32_sub s c s' c' o h
  | I32Shl => exact run_binop_i32_inv i32_shl s c s' c' o h
  | I32ShrS => exact run_binop_i32_inv i32_shr_s s c s' c' o h
  | I32ShrU => exact run_binop_i32_inv i32_shr_u s c s' c' o h
  | I32Rotl => exact run_binop_i32_inv i32_rotl s c s' c' o h
  | I32Rotr => exact run_binop_i32_inv i32_rotr s c s' c' o h


/-- Helper: initialize only marks the context and extends its locals. -/
theorem initialize_fn (c : FunctionContext) (ls : List LocalEntry)
    (c' : FunctionContext) (h : c.initialize ls = .ok c') :
    c'.function = c.function := by
  unfold FunctionContext.initialize at h
  obtain ⟨nl, -, h⟩ := bind_eq_ok h
  injection h with h
  subst h
  rfl

/-- Helper: the first-entry initialization step of the run_function loop
keeps the context's function. -/
theorem cinit_fn (c : FunctionContext) (fb : FuncBody) (c1 : FunctionContext)
    (h : (if ¬c.is_initialized then do
            let cI ← c.initialize fb.locals
            cI.push_frame fb.labels .Function c.return_type
          else .ok c) = .ok c1) :
    c1.function = c.function := by
  by_cases hb : ¬c.is_initialized
  · rw [if_pos hb] at h
    obtain ⟨cI, hini, h⟩ := bind_eq_ok h
    rw [(push_frame_inv _ _ _ _ _ h).1, initialize_fn _ _ _ hini]
  · rw [if_neg hb] at h
    injection h with h
    subst h
    rfl

/-- Helper: a completed inner run preserves the store's function arena, and
any requested nested call keeps the caller's function and targets a
defined (body-carrying) function. -/
theorem doRunFunction_inv (fuel : Nat) :
    ∀ (s : Store) (c : FunctionContext) (body : List Opcode) (labels : Labels)
      (s' : Store) (r : RunResultM),
      doRunFunction s fuel c body labels = .ok (some (s', r)) →
      s'.funcs = s.funcs ∧
        ∀ caller nc, r = .NestedCall caller nc →
          caller.function = c.function ∧
            (s'.resolveFunc nc.function).body ≠ none := by
  induction fuel with
  | zero =>
      intro s c body labels s' r h
      unfold doRunFunction at h
      injection h with h
      exact Option.noConfusion h
  | succ fuel ih =>
      intro s c body labels s' r h
      unfold doRunFunction at h
      cases hb : body.get? c.position with
      | none =>
          rw [hb] at h
          exact Except.noConfusion h
      | some instr =>
          rw [hb] at h
          obtain ⟨⟨s1, c1, out⟩, hstep, h⟩ := bind_eq_ok h
          have hpres := run_instruction_inv s c labels instr s1 c1 out hstep
          simp only [] at h
          cases out with
          | RunNextInstruction =>
              obtain ⟨h1, h2⟩ := ih s1 _ body labels s' r h
              refine ⟨h1.trans hpres.1, fun caller nc hr => ?_⟩
              obtain ⟨hcf, hbody⟩ := h2 caller nc hr
              exact ⟨hcf.trans hpres.2, hbody⟩
          | Branch index =>
              obtain ⟨⟨c2, brk⟩, hbr, h⟩ := bind_eq_ok h
              simp only [] at h
              have hc2 := runBranch_fn index c1 c2 brk hbr
              cases brk with
              | true =>
                  rw [if_pos rfl] at h
                  obtain ⟨hs, v, hv⟩ := retValue_inv _ _ _ _ h
                  subst hs
                  refine ⟨hpres.1, fun caller nc hr => ?_⟩
                  rw [hv] at hr
                  exact RunResultM.noConfusion hr
              | false =>
                  rw [if_neg Bool.false_ne_true] at h
                  obtain ⟨h1, h2⟩ := ih s1 c2 body labels s' r h
                  refine ⟨h1.trans hpres.1, fun caller nc hr => ?_⟩
                  obtain ⟨hcf, hbody⟩ := h2 caller nc hr
                  exact ⟨hcf.trans (hc2.trans hpres.2), hbody⟩
          | ExecuteCall fref =>
              cases hn : FunctionContext.nested
                  { c1 with position := c1.position + 1 } s1 fref with
              | panic =>
                  simp only [hn] at h
                  injection h with h
                  injection h with h
                  injection h with hps hpr
                  refine ⟨by rw [← hps]; exact hpres.1, fun caller nc hr => ?_⟩
                  rw [← hpr] at hr
                  exact RunResultM.noConfusion hr
              | value r0 =>
                  simp only [hn] at h
                  obtain ⟨⟨caller0, nc0⟩, hr0, h⟩ := bind_eq_ok h
                  simp only [] at h
                  injection h with h
                  injection h with h
                  injection h with hps hpr
                  have hninv := nested_ok_inv _ _ _ _ _ (by rw [hn, hr0])
                  refine ⟨by rw [← hps]; exact hpres.1, fun caller nc hr => ?_⟩
                  rw [← hpr] at hr
                  injection hr with hcal hnc
                  rw [← hcal, ← hnc]
                  have hcf : caller0.function = c1.function := hninv.1
                  refine ⟨hcf.trans hpres.2, ?_⟩
                  rw [← hps, hninv.2.1]
                  exact hninv.2.2
          | End =>
              by_cases hes : c1.frame_stack.values.isEmpty = true
              · rw [if_pos hes] at h
                obtain ⟨hs, v, hv⟩ := retValue_inv _ _ _ _ h
                subst hs
                refine ⟨hpres.1, fun caller nc hr => ?_⟩
                rw [hv] at hr
                exact RunResultM.noConfusion hr
              · rw [if_neg hes] at h
                obtain ⟨h1, h2⟩ := ih s1 c1 body labels s' r h
                refine ⟨h1.trans hpres.1, fun caller nc hr => ?_⟩
                obtain ⟨hcf, hbody⟩ := h2 caller nc hr
                exact ⟨hcf.trans hpres.2, hbody⟩
          | Return =>
              obtain ⟨hs, v, hv⟩ := retValue_inv _ _ _ _ h
              subst hs
              refine ⟨hpres.1, fun caller nc hr => ?_⟩
              rw [hv] at hr
              exact RunResultM.noConfusion hr


/-- Helper: a body-less (host) function at the top of the stack makes the
loop drain its locals and abort the process. -/
theorem runFunctionLoop_host_panics (fuel : Nat) (s : Store)
    (c : FunctionContext) (rest : List FunctionContext) (trace : List Nat)
    (vs : StackWithLimit RuntimeValue)
    (hbody : (s.resolveFunc c.function).body = none)
    (hdrain : pushAll c.value_stack c.locals = .ok vs) :
    runFunctionLoop (fuel + 1) s (c :: rest) trace =
      (.panicked, c.function :: trace) := by
  unfold runFunctionLoop
  simp only [hbody, hdrain]

/-- Helper: when every stacked context runs a defined function, every
function id the loop records is either already in the incoming trace or
has a defined body. -/
theorem runFunctionLoop_defined_trace (fuel : Nat) :
    ∀ (s : Store) (stack : List FunctionContext) (trace : List Nat)
      (out : RunOut) (trace' : List Nat),
      (∀ c ∈ stack, (s.resolveFunc c.function).body ≠ none) →
      runFunctionLoop fuel s stack trace = (out, trace') →
      ∀ fid ∈ trace', fid ∈ trace ∨ (s.resolveFunc fid).body ≠ none := by
  induction fuel with
  | zero =>
      intro s stack trace out trace' hstack h fid hfid
      unfold runFunctionLoop at h
      injection h with h1 h2
      subst h2
      exact Or.inl hfid
  | succ fuel ih =>
      intro s stack trace out trace' hstack h fid hfid
      unfold runFunctionLoop at h
      cases stack with
      | nil =>
          injection h with h1 h2
          subst h2
          exact Or.inl hfid
      | cons c restStack =>
          simp only [] at h
          cases hbody : (s.resolveFunc c.function).body with
          | none => exact absurd hbody (hstack c (List.mem_cons_self c restStack))
          | some fb =>
              simp only [hbody] at h
              have hcons : ∀ g, g ∈ c.function :: trace →
                  g ∈ trace ∨ (s.resolveFunc g).body ≠ none := by
                intro g hg
                rcases List.mem_cons.mp hg with hge | hgt
                · subst hge
                  exact Or.inr (by rw [hbody]; simp)
                · exact Or.inl hgt
              split at h
              · injection h with h1 h2
                subst h2
                exact hcons fid hfid
              · rename_i c1 heqInit
                have hc1 := cinit_fn c fb c1 heqInit
                split at h
                · injection h with h1 h2
                  subst h2
                  exact hcons fid hfid
                · injection h with h1 h2
                  subst h2
                  exact hcons fid hfid
                · injection h with h1 h2
                  subst h2
                  exact hcons fid hfid
                · rename_i s' v heqRun
                  have hinv := doRunFunction_inv fuel s c1 fb.opcodes fb.labels
                    s' (.Ret v) heqRun
                  split at h
                  · injection h with h1 h2
                    subst h2
                    exact hcons fid hfid
                  · rename_i caller rest2
                    split at h
                    · rename_i rv
                      split at h
                      · injection h with h1 h2
                        subst h2
                        exact hcons fid hfid
                      · rename_i vs2 heqPush
                        have hstack' : ∀ x ∈
                            ({ caller with value_stack := vs2 } :: rest2),
                            (s'.resolveFunc x.function).body ≠ none := by
                          intro x hx
                          rw [resolveFunc_congr s s' hinv.1]
                          rcases List.mem_cons.mp hx with hxe | hxt
                          · subst hxe
                            exact hstack caller (List.mem_cons_of_mem c
                              (List.mem_cons_self caller rest2))
                          · exact hstack x (List.mem_cons_of_mem c
                              (List.mem_cons_of_mem caller hxt))
                        have hres := ih s' _ (c.function :: trace) out trace'
                          hstack' h
                        rcases hres fid hfid with hmem | hdef
                        · exact hcons fid hmem
                        · exact Or.inr
                            (by rw [← resolveFunc_congr s s' hinv.1 fid]
                                exact hdef)
                    · have hstack' : ∀ x ∈ caller :: rest2,
                          (s'.resolveFunc x.function).body ≠ none := by
                        intro x hx
                        rw [resolveFunc_congr s s' hinv.1]
                        exact hstack x (List.mem_cons_of_mem c hx)
                      have hres := ih s' _ (c.function :: trace) out trace'
                        hstack' h
                      rcases hres fid hfid with hmem | hdef
                      · exact hcons fid hmem
                      · exact Or.inr
                          (by rw [← resolveFunc_congr s s' hinv.1 fid]
                              exact hdef)
                · rename_i s' caller nc heqRun
                  have hinv := doRunFunction_inv fuel s c1 fb.opcodes fb.labels
                    s' (.NestedCall caller nc) heqRun
                  have hnci := hinv.2 caller nc rfl
                  have hstack' : ∀ x ∈ nc :: caller :: restStack,
                      (s'.resolveFunc x.function).body ≠ none := by
                    intro x hx
                    rcases List.mem_cons.mp hx with hxe | hx2
                    · subst hxe
                      exact hnci.2
                    · rcases List.mem_cons.mp hx2 with hxc | hxt
                      · subst hxc
                        rw [resolveFunc_congr s s' hinv.1, hnci.1, hc1, hbody]
                        simp
                      · rw [resolveFunc_congr s s' hinv.1]
                        exact hstack x (List.mem_cons_of_mem c hxt)
                  have hres := ih s' _ (c.function :: trace) out trace'
                    hstack' h
                  rcases hres fid hfid with hmem | hdef
                  · exact hcons fid hmem
                  · exact Or.inr
                      (by rw [← resolveFunc_congr s s' hinv.1 fid]
                          exact hdef)


/-- C10: if the run_function loop reaches a context whose resolved function
has no body (a host function), it drains the locals back onto the value
stack and aborts the process rather than returning a Result; consequently,
for an invocation whose stacked contexts all run defined-body functions,
every function id the loop records as entered is a defined-body function
(or was already recorded before the invocation). -/
theorem host_function_panics_and_traces_stay_defined :
    (∀ (fuel : Nat) (s : Store) (c : FunctionContext)
       (rest : List FunctionContext) (trace : List Nat)
       (vs : StackWithLimit RuntimeValue),
       (s.resolveFunc c.function).body = none →
       pushAll c.value_stack c.locals = .ok vs →
       runFunctionLoop (fuel + 1) s (c :: rest) trace =
         (.panicked, c.function :: trace)) ∧
    (∀ (fuel : Nat) (s : Store) (stack : List FunctionContext)
       (trace trace' : List Nat) (out : RunOut),
       (∀ c ∈ stack, (s.resolveFunc c.function).body ≠ none) →
       runFunctionLoop fuel s stack trace = (out, trace') →
       ∀ fid ∈ trace', fid ∈ trace ∨ (s.resolveFunc fid).body ≠ none) :=
  ⟨fun fuel s c rest trace vs h1 h2 =>
     runFunctionLoop_host_panics fuel s c rest trace vs h1 h2,
   fun fuel s stack trace trace' out h1 h2 =>
     runFunctionLoop_defined_trace fuel s stack trace out trace' h1 h2⟩

/-- Witness for C10: a store whose only function is a host function makes
the loop panic with the function recorded in the trace; a store whose only
function is defined keeps every recorded id defined. -/
theorem host_function_panics_and_traces_stay_defined_witness :
    runFunctionLoop 1 ⟨[⟨[], none⟩], [.Host 0], [], [], [], []⟩ [{ is_initialized := true, function := 0, module := 0, return_type := .NoResult, locals := [], value_stack := ⟨[], 10⟩, frame_stack := ⟨[], 10⟩, position := 0 }] [] = (.panicked, [0]) ∧
    (∀ fid ∈ ([0] : List Nat), fid ∈ ([] : List Nat) ∨
      ((⟨[⟨[], none⟩], [.Defined 0 0 ⟨[], [], []⟩], [], [], [], []⟩ : Store).resolveFunc fid).body ≠ none) :=
  ⟨host_function_panics_and_traces_stay_defined.1 0
     ⟨[⟨[], none⟩], [.Host 0], [], [], [], []⟩
     { is_initialized := true, function := 0, module := 0, return_type := .NoResult, locals := [], value_stack := ⟨[], 10⟩, frame_stack := ⟨[], 10⟩, position := 0 }
     [] [] ⟨[], 10⟩ rfl rfl,
   host_function_panics_and_traces_stay_defined.2 1
     ⟨[⟨[], none⟩], [.Defined 0 0 ⟨[], [], []⟩], [], [], [], []⟩
     [{ is_initialized := true, function := 0, module := 0, return_type := .NoResult, locals := [], value_stack := ⟨[], 10⟩, frame_stack := ⟨[], 10⟩, position := 0 }]
     [] [0] .fuel_out
     (by intro x hx
         rw [List.mem_singleton.mp hx]
         intro hco
         exact Option.noConfusion hco)
     rfl⟩


end PW
